import Mathlib

/-!
Shallow embedding of the resolume_advanced_midi_mapper core
(`src/libraries/input_mapper.py`, `src/libraries/callbacks.py`,
`src/libraries/deck_model.py`, `src/libraries/state_reflector.py`)
and proofs about the behaviour of that code.

Numeric values (MIDI velocities, axis positions, fill/opacity levels,
tolerances such as 1e-6 and 1e-4) are modelled as rationals; Python float
arithmetic on these programs only combines such constants with +, -, *, /
and comparisons, which ℚ represents exactly for the inputs considered.
Randomness (`random.choice`, `random.sample`, `random.randint`) is modelled
by an explicit oracle argument that always selects from the offered
candidates, and wall-clock time (`time.time`, `time.monotonic`) by explicit
parameters.
-/

namespace MidiMapper

/-- Clamp a rational to [0,1]: the Python idiom `max(0.0, min(1.0, v))`. -/
def clamp01 (v : ℚ) : ℚ := max 0 (min 1 v)

/-- Python's `str.startswith`, computed on the character lists of the
two strings (extensionally `String.startsWith`). -/
def str_starts_with (s pre : String) : Bool := pre.data.isPrefixOf s.data

/-- A control identifier: either a plain string name (joystick buttons,
axes, hats) or a MIDI tuple `(kind, number[, channel])` as produced by the
device layer, e.g. `("note", 48, 1)` or `("cc", 21)`. -/
inductive Control
  | name (s : String)
  | midi (kind : String) (num : Int) (chan : Option Int)
  deriving DecidableEq, Repr

/-- Normalized device event (`DeviceEvent` in `devices.py`):
origin device id, control identifier, numeric value. -/
structure DeviceEvent where
  device : String
  control : Control
  value : ℚ
  deriving DecidableEq, Repr

/-- One declarative binding rule, the dictionary consumed by
`InputMapper`.  A missing `control` key is represented by `none`
(it matches nothing), `edge` defaults to `"both"` at construction. -/
structure Rule where
  device : String
  control : Option Control
  action : String
  deck : Option String
  edge : String
  fixed_value : Option ℚ
  value_scale : Option (ℚ × ℚ)
  deriving DecidableEq, Repr

/-- `InputMapper._match_control`: string patterns match by exact equality;
MIDI tuple patterns match on kind and number, and on channel only when the
pattern specifies one (in which case the event control must carry an equal
channel). -/
def match_control (control : Control) (pattern : Control) : Bool :=
  match pattern, control with
  | .name p, .name c => c == p
  | .name _, .midi _ _ _ => false
  | .midi _ _ _, .name _ => false
  | .midi pk pn pc, .midi ck cn cc =>
      pk == ck && pn == cn &&
        (match pc with
         | some pch => (match cc with
            | some cch => pch == cch
            | none => false)
         | none => true)

/-- A rule whose `control` key is absent matches no event control
(`_match_control(ev.control, None)` is false). -/
def match_pattern (control : Control) : Option Control → Bool
  | some p => match_control control p
  | none => false

/-- `InputMapper._scale_to_01`: normalize a continuous source to [0,1]
(axis `[-1,1] → [0,1]`, cc `[0,127] → [0,1]`), apply the optional
`value_scale` clamp/rescale window (a zero-width window is treated as
width 1, mirroring `(hi - lo) or 1.0`), then clamp to [0,1]. -/
def scale_to_01 (control : Control) (value : ℚ) (value_scale : Option (ℚ × ℚ)) : ℚ :=
  let v := value
  let v := match control with
    | .name s => if str_starts_with s "axis_" then (v + 1) * (1/2) else v
    | .midi _ _ _ => v
  let v := match control with
    | .midi k _ _ => if k == "cc" then v / 127 else v
    | .name _ => v
  let v := match value_scale with
    | some (lo, hi) =>
        let w := max lo (min hi v)
        let rng := if hi - lo == 0 then 1 else hi - lo
        (w - lo) / rng
    | none => v
  clamp01 v

/-- `InputMapper._is_buttonish`: digital controls subject to edge
detection — `button_*`/`hat_*` string names and note-kind MIDI tuples. -/
def is_buttonish : Control → Bool
  | .name s => str_starts_with s "button_" || str_starts_with s "hat_"
  | .midi k _ _ => k == "note"

/-- The edge-gating decision of `handle_event` for one rule: buttonish
controls fire on the requested edge computed from the previous cached
value, continuous controls always fire. -/
def edge_fired (control : Control) (edge : String) (last value : ℚ) : Bool :=
  if is_buttonish control then
    let rising := last == 0 && value != 0
    let falling := last != 0 && value == 0
    if edge == "press" then rising
    else if edge == "release" then falling
    else if edge == "both" then rising || falling
    else false
  else true

/-- The argument shape with which `handle_event` invokes a resolved
callback: `cb(deck, v)`, `cb(v)`, `cb(deck)` or `cb()`. -/
inductive CallShape
  | deckValue (deck : String) (v : ℚ)
  | valueOnly (v : ℚ)
  | deckOnly (deck : String)
  | noArgs
  deriving DecidableEq, Repr

/-- Whether an invocation carries a value argument. -/
def CallShape.hasValue : CallShape → Bool
  | .deckValue _ _ => true
  | .valueOnly _ => true
  | .deckOnly _ => false
  | .noArgs => false

/-- The invocation `handle_event` makes for a fired rule: only the
`set_fill` action receives a value (the rule's `fixed_value` if present,
else the normalized event value); every other action is called with just
the deck (or nothing when the rule names no deck). -/
def call_shape (rule : Rule) (ev : DeviceEvent) : String × CallShape :=
  if rule.action == "set_fill" then
    let v := match rule.fixed_value with
      | some f => f
      | none => scale_to_01 ev.control ev.value rule.value_scale
    match rule.deck with
    | some d => (rule.action, .deckValue d v)
    | none => (rule.action, .valueOnly v)
  else
    match rule.deck with
    | some d => (rule.action, .deckOnly d)
    | none => (rule.action, .noArgs)

/-- The per-rule decision of the dispatch loop: device equality, control
pattern match, callback resolution, then edge gating against the cached
previous value. -/
def rule_fires (registry : String → Bool) (rule : Rule) (ev : DeviceEvent)
    (last : ℚ) : Bool :=
  rule.device == ev.device &&
  match_pattern ev.control rule.control &&
  registry rule.action &&
  edge_fired ev.control rule.edge last ev.value

/-- The sequence of invocations the dispatch loop performs when no handler
raises: all matching, edge-satisfying, resolvable rules in list order. -/
def fired_calls (registry : String → Bool) (rules : List Rule)
    (ev : DeviceEvent) (last : ℚ) : List (String × CallShape) :=
  (rules.filter (fun r => rule_fires registry r ev last)).map
    (fun r => call_shape r ev)

/-- The dispatch loop of `handle_event` over the binding list.  `exec`
models executing the resolved Python callable: `exec a s = true` means the
handler returned normally, `false` that it raised.  `handle_event` wraps
the loop in no try/except, so a raising handler aborts the loop: the
result records the invocations actually made and whether an exception
propagated out. -/
def dispatch_rules (registry : String → Bool) (exec : String → CallShape → Bool)
    (rules : List Rule) (ev : DeviceEvent) (last : ℚ) :
    List (String × CallShape) × Bool :=
  match rules with
  | [] => ([], false)
  | rule :: rest =>
    if rule_fires registry rule ev last then
      let c := call_shape rule ev
      if exec c.1 c.2 then
        let r := dispatch_rules registry exec rest ev last
        (c :: r.1, r.2)
      else
        ([c], true)
    else
      dispatch_rules registry exec rest ev last

/-- The last-value cache keyed by `(device, control)`. -/
abbrev Cache := List ((String × Control) × ℚ)

/-- `self._last_values.get(key, 0)`. -/
def cache_get (cache : Cache) (k : String × Control) : ℚ :=
  match cache.find? (fun p => p.1 == k) with
  | some p => p.2
  | none => 0

/-- `self._last_values[key] = value` (insert-or-replace). -/
def cache_set (cache : Cache) (k : String × Control) (v : ℚ) : Cache :=
  match cache.find? (fun p => p.1 == k) with
  | some _ => cache.map (fun p => if p.1 == k then (p.1, v) else p)
  | none => cache ++ [(k, v)]

/-- Result of `InputMapper.handle_event`: the updated cache, the handler
invocations made (in order), and whether a handler exception propagated
out of `handle_event`. -/
structure DispatchResult where
  cache : Cache
  calls : List (String × CallShape)
  raised : Bool

/-- `InputMapper.handle_event`: read the cached previous value for
`(device, control)` (default 0), unconditionally store the new value —
before and independently of any binding matching — then run the dispatch
loop over the bindings. -/
def handle_event (registry : String → Bool) (exec : String → CallShape → Bool)
    (bindings : List Rule) (cache : Cache) (ev : DeviceEvent) : DispatchResult :=
  let key := (ev.device, ev.control)
  let last := cache_get cache key
  let cache1 := cache_set cache key ev.value
  let r := dispatch_rules registry exec bindings ev last
  { cache := cache1, calls := r.1, raised := r.2 }

/-! ## Deck model (`deck_model.py`) -/

/-- `LayerInfo`: one Resolume layer, with its type tags, discovered
non-stop clip columns and optional stop-clip column. -/
structure LayerInfo where
  index : Int
  lname : String
  types : List String
  clips : List Int
  stop_clip : Option Int
  deriving DecidableEq, Repr

/-- `GroupInfo`: a group and its dict of layer-index → `LayerInfo`,
kept as an association list in insertion order (Python dict order). -/
structure GroupInfo where
  index : Int
  gname : String
  layers : List (Int × LayerInfo)
  deriving DecidableEq, Repr

/-- `DeckState`: per-deck flags and levels.  `last_changed` is the
timestamp field; the `time.time()` values that would be written into it
are supplied explicitly where a method reads the clock. -/
structure DeckState where
  dname : String
  playing : Bool
  effects : Bool
  colors : Bool
  transform : Bool
  fill : ℚ
  opacity : ℚ
  last_changed : ℚ
  deriving DecidableEq, Repr

/-- `DeckState.set_effects(value)` (with `now` the value of
`time.time()` at the call): flips the flag and touches `last_changed`
only when the value actually changes. -/
def DeckState.set_effects (d : DeckState) (value : Bool) (now : ℚ) : DeckState :=
  if d.effects != value then { d with effects := value, last_changed := now } else d

/-- `DeckState.set_fill(value)`: clamps to [0,1] and stores, touching
`last_changed`, only when the clamped value moves the field by more
than 1e-6. -/
def DeckState.set_fill (d : DeckState) (value : ℚ) (now : ℚ) : DeckState :=
  let v := max 0 (min 1 value)
  if |d.fill - v| > 1/1000000 then { d with fill := v, last_changed := now } else d

/-- `DeckManager`: group→deck name map, deck states, and the discovered
group topology, all as association lists in Python dict order. -/
structure DeckManager where
  group_to_deck : List (String × String)
  decks : List (String × DeckState)
  groups_by_name : List (String × GroupInfo)
  deriving DecidableEq, Repr

/-- `DeckManager.get_deck`. -/
def get_deck (m : DeckManager) (name : String) : Option DeckState :=
  (m.decks.find? (fun p => p.1 == name)).map (fun p => p.2)

/-- In-place mutation of the `DeckState` stored under `name`
(Python mutates the object held in the dict). -/
def update_deck (m : DeckManager) (name : String) (d : DeckState) : DeckManager :=
  { m with decks := m.decks.map (fun p => if p.1 == name then (p.1, d) else p) }

/-- `CallbackRegistry._groups_for_deck`: group names mapped to the deck. -/
def groups_for_deck (m : DeckManager) (deck : String) : List String :=
  (m.group_to_deck.filter (fun p => p.2 == deck)).map (fun p => p.1)

/-- `DeckManager.get_group_layers_by_type`. -/
def get_group_layers_by_type (m : DeckManager) (g : String) (t : String) :
    List LayerInfo :=
  match (m.groups_by_name.find? (fun p => p.1 == g)).map (fun p => p.2) with
  | none => []
  | some gi => (gi.layers.map (fun p => p.2)).filter (fun li => li.types.contains t)

/-- `CallbackRegistry._layers_of_type_for_deck`. -/
def layers_of_type_for_deck (m : DeckManager) (deck : String) (t : String) :
    List LayerInfo :=
  ((groups_for_deck m deck).map (fun g => get_group_layers_by_type m g t)).flatten

/-- `CallbackRegistry._all_layers_for_deck`: every layer of every group
mapped to the deck, regardless of type. -/
def all_layers_for_deck (m : DeckManager) (deck : String) : List LayerInfo :=
  ((groups_for_deck m deck).map (fun g =>
    match (m.groups_by_name.find? (fun p => p.1 == g)).map (fun p => p.2) with
    | none => []
    | some gi => gi.layers.map (fun p => p.2))).flatten

/-! ## Callback registry (`callbacks.py`) -/

/-- A downstream OSC command, one constructor per `send_message` path
schema appearing in `callbacks.py`; `Cmd.render` below gives the exact
address string and payload each one stands for. -/
inductive Cmd
  | connectClip (layerIndex column : Int)
  | connectNext (layerIndex : Int)
  | groupMaster (groupIndex : Int) (v : ℚ)
  | deckStatus (deck : String) (field : String) (v : ℚ)
  | control (address : String)
  deriving DecidableEq, Repr

/-- Oracle for the `random` module.  `pick_idx`/`pick_idx_q` choose an
index into the offered list (`random.choice` selects a member),
`fallback_col` stands for `random.randint(2, 10)`, and `sample` for
`random.sample(layers, k)`. -/
structure RandOracle where
  pick_idx : List Int → Nat
  pick_idx_q : List ℚ → Nat
  fallback_col : Int
  sample : List LayerInfo → Nat → List LayerInfo

/-- `random.choice(clips)`: an element of the (nonempty) list. -/
def RandOracle.choice (r : RandOracle) (l : List Int) : Int :=
  l.getD (r.pick_idx l % l.length) 0

/-- `random.choice` over rationals (the canonical fill steps). -/
def RandOracle.choiceQ (r : RandOracle) (l : List ℚ) : ℚ :=
  l.getD (r.pick_idx_q l % l.length) 0

/-- The activation column for a layer: a random discovered clip, or a
random fallback column when no clips are known
(`random.choice(clips) if clips else random.randint(2, 10)`). -/
def pick_column (rnd : RandOracle) (li : LayerInfo) : Int :=
  if li.clips.isEmpty then rnd.fallback_col else rnd.choice li.clips

/-- The stop column for a layer: its `stop_clip` if known, else 1. -/
def stop_column (li : LayerInfo) : Int := li.stop_clip.getD 1

/-- Path of a clip-connect command. -/
def connect_path (layerIndex column : Int) : String :=
  "/composition/layers/" ++ toString layerIndex ++ "/clips/" ++
    toString column ++ "/connect"

/-- The OSC address and payload of each command, exactly the strings built
in `callbacks.py`. -/
def Cmd.render : Cmd → String × ℚ
  | .connectClip li col => (connect_path li col, 1)
  | .connectNext li =>
      ("/composition/layers/" ++ toString li ++ "/connectnextclip", 1)
  | .groupMaster g v => ("/composition/groups/" ++ toString g ++ "/master", v)
  | .deckStatus deck field v => ("/deck/" ++ deck ++ "/" ++ field, v)
  | .control a => (a, 1)

/-- A clip-connect command addressed at an individual layer (the shape
`stop_deck` uses per layer, and `_fire_fills_for_deck` for both stop and
activation). -/
def Cmd.isConnectClip : Cmd → Bool
  | .connectClip _ _ => true
  | _ => false

/-- The five per-deck status messages `_send_deck_state` pushes for a
given deck state. -/
def deck_state_msgs (deck : String) (d : DeckState) : List Cmd :=
  [ .deckStatus deck "effects" (if d.effects then 1 else 0),
    .deckStatus deck "colors" (if d.colors then 1 else 0),
    .deckStatus deck "transform" (if d.transform then 1 else 0),
    .deckStatus deck "fill" d.fill,
    .deckStatus deck "opacity" d.opacity ]

/-- `CallbackRegistry._send_deck_state`: push the deck's current state on
the status bus (five messages), or nothing for an unknown deck. -/
def send_deck_state (m : DeckManager) (deck : String) : List Cmd :=
  match get_deck m deck with
  | none => []
  | some d => deck_state_msgs deck d

/-- A fill-selection command as emitted by `_fire_fills_for_deck`:
either a stop (connect the layer's stop column) or an activation
(connect a random clip column).  Both render to the same OSC shape. -/
inductive FillCmd
  | stop (layerIndex : Int) (column : Int)
  | activate (layerIndex : Int) (column : Int)
  deriving DecidableEq, Repr

/-- Render a fill-selection command to its OSC message
(`send_message(path, 1)`). -/
def FillCmd.toOsc : FillCmd → Cmd
  | .stop li col => .connectClip li col
  | .activate li col => .connectClip li col

/-- Python `round` (banker's rounding, ties to even), as used by
`round(ratio * n)`. -/
def py_round (q : ℚ) : Int :=
  let fl := ⌊q⌋
  let fr := q - fl
  if fr < 1/2 then fl
  else if fr > 1/2 then fl + 1
  else if fl % 2 == 0 then fl else fl + 1

/-- The exact-step ratio table `{0.25: 0.25, 0.5: 0.50, 0.75: 0.75, 1.0: 1.0}.get(f)`. -/
def ratio_map (f : ℚ) : Option ℚ :=
  if f == 1/4 then some (1/4)
  else if f == 1/2 then some (1/2)
  else if f == 3/4 then some (3/4)
  else if f == 1 then some 1
  else none

/-- `CallbackRegistry._fire_fills_for_deck`: exclusive fill selection.
At 0 every fills-typed layer gets a stop; at an exact step in
{1/4, 1/2, 3/4} a random sample of `max 1 (round(ratio*n))` layers is
activated and the rest stopped; at 1 every layer is activated; any other
value (including near-step values) emits nothing. -/
def fire_fills_for_deck (m : DeckManager) (rnd : RandOracle) (deck : String)
    (fill_value : ℚ) : List FillCmd :=
  let layers := layers_of_type_for_deck m deck "fills"
  let n := layers.length
  if n == 0 then []
  else
    let f := max 0 (min 1 fill_value)
    if f == 0 then
      layers.map (fun li => .stop li.index (stop_column li))
    else
      match ratio_map f with
      | none => []
      | some ratio =>
        let selected :=
          if ratio ≥ 1 then layers
          else
            let k := (max 1 (py_round (ratio * n))).toNat
            if k < n then rnd.sample layers k else layers
        let selIds := selected.map (fun li => li.index)
        layers.map (fun li =>
          if selIds.contains li.index then
            .activate li.index (pick_column rnd li)
          else
            .stop li.index (stop_column li))

/-- `CallbackRegistry._fire_for_layer_type`: when enabling, connect a
random clip on every layer of the type; when disabling, connect each
layer's stop column. -/
def fire_for_layer_type (m : DeckManager) (rnd : RandOracle) (deck : String)
    (layer_type : String) (enabled : Bool) : List Cmd :=
  let layers := layers_of_type_for_deck m deck layer_type
  if layers.isEmpty then []
  else
    layers.map (fun li =>
      let column := if enabled then pick_column rnd li else stop_column li
      Cmd.connectClip li.index column)

/-- `CallbackRegistry._connect_next_for_layers`. -/
def connect_next_for_layers (layers : List LayerInfo) : List Cmd :=
  layers.map (fun li => Cmd.connectNext li.index)

/-- Result type of a handler: the mutated manager and the OSC commands
sent, in order. -/
abbrev HandlerResult := DeckManager × List Cmd

/-- `CallbackRegistry.toggle_effects`. -/
def toggle_effects (m : DeckManager) (rnd : RandOracle) (deck : String) :
    HandlerResult :=
  match get_deck m deck with
  | none => (m, [])
  | some d =>
    let d1 := { d with effects := !d.effects }
    let m1 := update_deck m deck d1
    (m1, fire_for_layer_type m1 rnd deck "effects" d1.effects ++
           send_deck_state m1 deck)

/-- `CallbackRegistry.toggle_colors`. -/
def toggle_colors (m : DeckManager) (rnd : RandOracle) (deck : String) :
    HandlerResult :=
  match get_deck m deck with
  | none => (m, [])
  | some d =>
    let d1 := { d with colors := !d.colors }
    let m1 := update_deck m deck d1
    (m1, fire_for_layer_type m1 rnd deck "colors" d1.colors ++
           send_deck_state m1 deck)

/-- `CallbackRegistry.toggle_transform` (fires the "transforms" layer type). -/
def toggle_transform (m : DeckManager) (rnd : RandOracle) (deck : String) :
    HandlerResult :=
  match get_deck m deck with
  | none => (m, [])
  | some d =>
    let d1 := { d with transform := !d.transform }
    let m1 := update_deck m deck d1
    (m1, fire_for_layer_type m1 rnd deck "transforms" d1.transform ++
           send_deck_state m1 deck)

/-- `CallbackRegistry.set_fill(deck, value)`: raw units above 1 are
divided by 127, the result clamped to [0,1]; the deck's fill is updated
only when it moves by more than 1e-6; `playing` is forced true; the
discrete fill-selection side effect is invoked whenever the computed
value is within 1e-4 of a canonical step; state is pushed when anything
changed. -/
def set_fill (m : DeckManager) (rnd : RandOracle) (deck : String) (value : ℚ) :
    HandlerResult :=
  match get_deck m deck with
  | none => (m, [])
  | some d =>
    let v := if value > 1 then value / 127 else value
    let v := max 0 (min 1 v)
    let p1 := if |d.fill - v| > 1/1000000 then ({ d with fill := v }, true)
              else (d, false)
    let p2 := if !p1.1.playing then ({ p1.1 with playing := true }, true)
              else (p1.1, p1.2)
    let m1 := update_deck m deck p2.1
    let is_step := [(0 : ℚ), 1/4, 1/2, 3/4, 1].any (fun s => |v - s| < 1/10000)
    let fillCmds := if is_step then (fire_fills_for_deck m1 rnd deck v).map FillCmd.toOsc
                    else []
    let stateCmds := if p2.2 then send_deck_state m1 deck else []
    (m1, fillCmds ++ stateCmds)

/-- `CallbackRegistry.set_opacity(deck, value)`: normalizes like
`set_fill`, sends the group master for every mapped group, updates the
deck's opacity when different, and always pushes deck state. -/
def set_opacity (m : DeckManager) (deck : String) (value : ℚ) : HandlerResult :=
  match get_deck m deck with
  | none => (m, [])
  | some d =>
    let v := if value > 1 then value / 127 else value
    let v := max 0 (min 1 v)
    let idxs := (groups_for_deck m deck).filterMap (fun g =>
      ((m.groups_by_name.find? (fun p => p.1 == g)).map (fun p => p.2)).map
        (fun gi => gi.index))
    let opCmds := idxs.map (fun gi => Cmd.groupMaster gi v)
    let d1 := if d.opacity != v then { d with opacity := v } else d
    let m1 := update_deck m deck d1
    (m1, opCmds ++ send_deck_state m1 deck)

/-- `CallbackRegistry.stop_deck`: connect the stop column on every layer
of every group mapped to the deck, then set `playing := false`,
`fill := 0` and push state. -/
def stop_deck (m : DeckManager) (deck : String) : HandlerResult :=
  match get_deck m deck with
  | none => (m, [])
  | some d =>
    let layers := all_layers_for_deck m deck
    let stopCmds := layers.map (fun li =>
      Cmd.connectClip li.index (stop_column li))
    let d1 := { d with playing := false, fill := 0 }
    let m1 := update_deck m deck d1
    (m1, stopCmds ++ send_deck_state m1 deck)

/-- `CallbackRegistry.random_fills`: pick a canonical step at random,
store it with `playing := true`, run the fill selection and push state. -/
def random_fills (m : DeckManager) (rnd : RandOracle) (deck : String) :
    HandlerResult :=
  match get_deck m deck with
  | none => (m, [])
  | some d =>
    let v := rnd.choiceQ [0, 1/4, 1/2, 3/4, 1]
    let d1 := { d with fill := v, playing := true }
    let m1 := update_deck m deck d1
    (m1, (fire_fills_for_deck m1 rnd deck v).map FillCmd.toOsc ++
           send_deck_state m1 deck)

/-- `CallbackRegistry.next_clip`: always advance fills layers; advance
colors/transforms/effects layers only when the corresponding flag is set. -/
def next_clip (m : DeckManager) (deck : String) : HandlerResult :=
  match get_deck m deck with
  | none => (m, [])
  | some d =>
    let cmds :=
      connect_next_for_layers (layers_of_type_for_deck m deck "fills") ++
      (if d.colors then connect_next_for_layers (layers_of_type_for_deck m deck "colors") else []) ++
      (if d.transform then connect_next_for_layers (layers_of_type_for_deck m deck "transforms") else []) ++
      (if d.effects then connect_next_for_layers (layers_of_type_for_deck m deck "effects") else [])
    (m, cmds)

/-- `CallbackRegistry.next_or_random`. -/
def next_or_random (m : DeckManager) (rnd : RandOracle) (deck : String) :
    HandlerResult :=
  match get_deck m deck with
  | none => (m, [])
  | some d =>
    if d.playing then next_clip m deck else random_fills m rnd deck

/-- The per-deck body of `stop_all_decks`'s loop: for each deck name in
turn, set `playing := false`, `fill := 0` and push that deck's state. -/
def stop_all_go (m : DeckManager) (names : List String) : HandlerResult :=
  match names with
  | [] => (m, [])
  | n :: rest =>
    match get_deck m n with
    | none => stop_all_go m rest
    | some d =>
      let m1 := update_deck m n { d with playing := false, fill := 0 }
      let r := stop_all_go m1 rest
      (r.1, send_deck_state m1 n ++ r.2)

/-- `CallbackRegistry.stop_all_decks`: stop every managed deck, push each
deck's state, then send the general stop-all control message.  No
per-layer command is emitted. -/
def stop_all_decks (m : DeckManager) : HandlerResult :=
  let r := stop_all_go m (m.decks.map (fun p => p.1))
  (r.1, r.2 ++ [Cmd.control "/czechb/control/stop_all_decks"])

/-! ## Action registry surface (`callbacks.py`: `self.callbacks` and the
Python signatures of the registered methods) -/

/-- The action names registered in `CallbackRegistry.__init__`. -/
def registry_actions : List String :=
  ["toggle_effects", "toggle_colors", "toggle_transform", "set_fill",
   "set_opacity", "stop_deck", "random_fills", "next_clip", "next_or_random",
   "stop_all_decks", "start_autopilot", "stop_autopilot", "toggle_record",
   "tempo_tap", "nudge_minus", "nudge_plus", "bpm_resync", "toggle_metronome"]

/-- `CallbackRegistry.get(action)` resolves exactly the registered names. -/
def registry_has (a : String) : Bool := registry_actions.contains a

/-- Number of positional arguments carried by an invocation shape. -/
def CallShape.argCount : CallShape → Nat
  | .deckValue _ _ => 2
  | .valueOnly _ => 1
  | .deckOnly _ => 1
  | .noArgs => 0

/-- The number of required positional parameters (after `self`) of each
registered handler method in `callbacks.py`. -/
def py_param_count (action : String) : Option Nat :=
  if action ∈ ["toggle_effects", "toggle_colors", "toggle_transform",
               "stop_deck", "random_fills", "next_clip", "next_or_random"] then
    some 1
  else if action ∈ ["set_fill", "set_opacity"] then some 2
  else if action ∈ ["stop_all_decks", "start_autopilot", "stop_autopilot",
                    "toggle_record", "tempo_tap", "nudge_minus", "nudge_plus",
                    "bpm_resync", "toggle_metronome"] then some 0
  else none

/-- A Python-faithful `exec` for the dispatch loop: calling a handler
with the wrong number of positional arguments raises `TypeError`;
a call with matching arity completes (no other failure is injected). -/
def exec_arity (action : String) (s : CallShape) : Bool :=
  match py_param_count action with
  | some n => s.argCount == n
  | none => false

/-! ## State reflector (`state_reflector.py`) -/

/-- An LED update: `apc_bus.note_on(note, vel, channel=ch)`. -/
structure LedWrite where
  note : Int
  vel : Int
  channel : Int
  deriving DecidableEq, Repr

/-- The APC velocity palette (`APC_VEL`). -/
def apc_vel_off : Int := 0
/-- `APC_VEL["green"]`. -/
def apc_vel_green : Int := 1
/-- `APC_VEL["red"]`. -/
def apc_vel_red : Int := 3
/-- `APC_VEL["yellow"]`. -/
def apc_vel_yellow : Int := 5

/-- The content of the compact signature string `_reflect_apc_leds`
builds: `f"ch{ch}|57:{v57}|52:{v52}|greens:{g}|b57:{f57}|b52:{f52}"`.
The rendering (below) is injective in the six fields, so signature-string
comparison is comparison of this record. -/
structure ApcSig where
  ch : Int
  v57 : Int
  v52 : Int
  greens : Int
  b57 : Int
  b52 : Int
  deriving DecidableEq, Repr

/-- The exact signature string the source builds from the record. -/
def ApcSig.render (s : ApcSig) : String :=
  "ch" ++ toString s.ch ++ "|57:" ++ toString s.v57 ++ "|52:" ++
    toString s.v52 ++ "|greens:" ++ toString s.greens ++ "|b57:" ++
    toString s.b57 ++ "|b52:" ++ toString s.b52

/-- Signature-cache lookup (`self._last_apc_sig.get(deck.name)`). -/
def sig_get {α : Type} (sigs : List (String × α)) (name : String) : Option α :=
  (sigs.find? (fun p => p.1 == name)).map (fun p => p.2)

/-- Signature-cache store (`self._last_apc_sig[deck.name] = sig`). -/
def sig_set {α : Type} (sigs : List (String × α)) (name : String) (sig : α) :
    List (String × α) :=
  match sigs.find? (fun p => p.1 == name) with
  | some _ => sigs.map (fun p => if p.1 == name then (p.1, sig) else p)
  | none => sigs ++ [(name, sig)]

/-- The number of lit green segment LEDs for a fill level:
`int(round(clamp(fill, 0, 1) * 4))` clamped to [0, 4]. -/
def greens_count (fill : ℚ) : Int :=
  max 0 (min 4 (py_round (clamp01 fill * 4)))

/-- Velocity of note 57: yellow when playing, red when not (both solid). -/
def note57_vel (playing : Bool) : Int :=
  if playing then apc_vel_yellow else apc_vel_red

/-- Velocity of note 52: blinking green while playing (per-channel blink
phase supplied by `blink`), off when not playing. -/
def note52_vel (playing blink : Bool) : Int :=
  if playing then (if blink then apc_vel_green else apc_vel_off) else apc_vel_off

/-- Blink flag of note 52 as recorded in the signature. -/
def blink_flag_52 (playing blink : Bool) : Int :=
  if playing then (if blink then 1 else 0) else 0

/-- The per-deck signature built by `_reflect_apc_leds` (the `b57` field
is 0 on both branches of the source). -/
def apc_sig (ch : Int) (playing blink : Bool) (fill : ℚ) : ApcSig :=
  { ch := ch, v57 := note57_vel playing, v52 := note52_vel playing blink,
    greens := greens_count fill, b57 := 0,
    b52 := blink_flag_52 playing blink }

/-- The LED writes rendered when the signature check passes: notes 57 and
52, then the four fill segment notes 56..53 (green below the lit count,
off above it). -/
def apc_writes (ch : Int) (playing blink : Bool) (fill : ℚ) : List LedWrite :=
  [ { note := 57, vel := note57_vel playing, channel := ch },
    { note := 52, vel := note52_vel playing blink, channel := ch } ] ++
  ([56, 55, 54, 53].enum.map (fun p =>
    { note := p.2,
      vel := if (p.1 : Int) < greens_count fill then apc_vel_green else apc_vel_off,
      channel := ch }))

/-- `StateReflector._reflect_apc_leds` for one deck: skip everything when
no APC bus is configured or the deck has no output channel; otherwise
build the signature, skip emission when it matches the cached one and no
forced refresh is pending, else emit the writes and store the signature.
`blink_on ch` is the value of `self._blink_on(ch)` at this instant
(a pure function of `time.monotonic()`, the channel and the blink
settings, supplied here as an input). -/
def reflect_apc_leds (apc_available : Bool) (deck_to_channel : List (String × Int))
    (blink_on : Int → Bool) (sigs : List (String × ApcSig)) (deck : DeckState)
    (force : Bool) : List LedWrite × List (String × ApcSig) :=
  if !apc_available then ([], sigs)
  else
    match (deck_to_channel.find? (fun p => p.1 == deck.dname)).map (fun p => p.2) with
    | none => ([], sigs)
    | some ch =>
      let blink := blink_on ch
      let sig := apc_sig ch deck.playing blink deck.fill
      if !force && sig_get sigs deck.dname == some sig then ([], sigs)
      else (apc_writes ch deck.playing blink deck.fill, sig_set sigs deck.dname sig)

/-- `StateReflector._tick`: reflect every managed deck in order,
threading the signature cache (never forced). -/
def reflector_tick (apc_available : Bool) (deck_to_channel : List (String × Int))
    (blink_on : Int → Bool) (m : DeckManager) (sigs : List (String × ApcSig)) :
    List LedWrite × List (String × ApcSig) :=
  m.decks.foldl
    (fun acc p =>
      let r := reflect_apc_leds apc_available deck_to_channel blink_on acc.2 p.2 false
      (acc.1 ++ r.1, r.2))
    ([], sigs)

/-! ## Derived notions and concrete fixtures used in the statements -/

/-- Feed a sequence of events through `handle_event`, threading the
last-value cache and collecting each event's invocation list (the event
pump of `run.py` calls `handle_event` once per queued event). -/
def run_events (registry : String → Bool) (exec : String → CallShape → Bool)
    (bindings : List Rule) (cache : Cache) (evs : List DeviceEvent) :
    Cache × List (List (String × CallShape)) :=
  match evs with
  | [] => (cache, [])
  | ev :: rest =>
    let r := handle_event registry exec bindings cache ev
    let rr := run_events registry exec bindings r.cache rest
    (rr.1, r.calls :: rr.2)

/-- A continuous value source: an axis-named string control or a cc-kind
tuple — exactly the controls `_scale_to_01` rescales (the spec calls a
binding on such a control "value-bearing"). -/
def continuous_source : Control → Bool
  | .name s => str_starts_with s "axis_"
  | .midi k _ _ => k == "cc"

/-- The deck-level invariant claimed by the spec: every managed deck's
fill and opacity lie in [0,1]. -/
def deck_inv (m : DeckManager) : Prop :=
  ∀ n d, get_deck m n = some d →
    0 ≤ d.fill ∧ d.fill ≤ 1 ∧ 0 ≤ d.opacity ∧ d.opacity ≤ 1

/-- `last_changed` of every deck (known or not) agrees between two
managers. -/
def lc_preserved (m m1 : DeckManager) : Prop :=
  ∀ n, (get_deck m1 n).map DeckState.last_changed =
    (get_deck m n).map DeckState.last_changed

/-- The claim's reading of `set_fill` normalization: divide by 127 when
the magnitude exceeds 1, then clamp to [0,1]. -/
def set_fill_clamped (v : ℚ) : ℚ :=
  if |v| > 1 then clamp01 (v / 127) else clamp01 v

/-- The deck state after `set_fill(deck, v)` on current state `d`: fill
moves to the clamped value only when that changes it by more than 1e-6,
and `playing` is forced true. -/
def set_fill_next (d : DeckState) (v : ℚ) : DeckState :=
  if |d.fill - set_fill_clamped v| > 1/1000000
    then { d with fill := set_fill_clamped v, playing := true }
    else { d with playing := true }

/-- The five canonical fill steps. -/
def fill_steps : List ℚ := [0, 1/4, 1/2, 3/4, 1]

/-- Fixture: note 48 on mido channel 1. -/
def note48 : Control := .midi "note" 48 (some 1)

/-- Fixture: cc 21 on mido channel 1. -/
def cc21 : Control := .midi "cc" 21 (some 1)

/-- Fixture: a press-edge binding of note 48 to `toggle_effects` on deck
"stage". -/
def press_rule : Rule :=
  { device := "apc40", control := some note48, action := "toggle_effects",
    deck := some "stage", edge := "press", fixed_value := none,
    value_scale := none }

/-- Fixture: a release-edge binding of note 48 to `stop_deck` on deck
"stage". -/
def release_rule : Rule :=
  { device := "apc40", control := some note48, action := "stop_deck",
    deck := some "stage", edge := "release", fixed_value := none,
    value_scale := none }

/-- Fixture: a press-edge binding of note 48 to `set_opacity` (a handler
requiring two positional arguments). -/
def opacity_note_rule : Rule :=
  { device := "apc40", control := some note48, action := "set_opacity",
    deck := some "stage", edge := "press", fixed_value := none,
    value_scale := none }

/-- Fixture: a binding of cc 21 to `set_opacity` on deck "stage"
(default edge "both"). -/
def opacity_cc_rule : Rule :=
  { device := "apc40", control := some cc21, action := "set_opacity",
    deck := some "stage", edge := "both", fixed_value := none,
    value_scale := none }

/-- Fixture: a binding of cc 21 to `set_fill` on deck "stage". -/
def fill_cc_rule : Rule :=
  { device := "apc40", control := some cc21, action := "set_fill",
    deck := some "stage", edge := "both", fixed_value := none,
    value_scale := none }

/-- Fixture: a joystick button binding to `set_opacity` on deck "left". -/
def joy_op_rule : Rule :=
  { device := "joystick", control := some (.name "button_0"),
    action := "set_opacity", deck := some "left", edge := "press",
    fixed_value := none, value_scale := none }

/-- Fixture: a joystick button binding to `toggle_colors` on deck "left". -/
def joy_colors_rule : Rule :=
  { device := "joystick", control := some (.name "button_0"),
    action := "toggle_colors", deck := some "left", edge := "press",
    fixed_value := none, value_scale := none }

/-- Fixture: a joystick button binding to an action name absent from the
registry. -/
def joy_unknown_rule : Rule :=
  { device := "joystick", control := some (.name "button_0"),
    action := "set_brightness", deck := some "left", edge := "press",
    fixed_value := none, value_scale := none }

/-- Fixture: a note event on the apc40. -/
def note_ev (v : ℚ) : DeviceEvent := { device := "apc40", control := note48, value := v }

/-- Fixture: a cc event on the apc40. -/
def cc_ev (v : ℚ) : DeviceEvent := { device := "apc40", control := cc21, value := v }

/-- Fixture: a joystick button event. -/
def joy_ev (v : ℚ) : DeviceEvent :=
  { device := "joystick", control := .name "button_0", value := v }

/-- Fixture: a fills-typed layer with two known clip columns. -/
def layer_f1 : LayerInfo :=
  { index := 3, lname := "Deck Fills 1", types := ["fills"], clips := [2, 4],
    stop_clip := some 1 }

/-- Fixture: a group holding the fills layer. -/
def group_ex : GroupInfo := { index := 1, gname := "G1", layers := [(3, layer_f1)] }

/-- Fixture: deck "stage" at fill 1/2, playing. -/
def deck_half : DeckState :=
  { dname := "stage", playing := true, effects := false, colors := false,
    transform := false, fill := 1/2, opacity := 1, last_changed := 0 }

/-- Fixture: deck "stage" in its startup state. -/
def deck_zero : DeckState :=
  { dname := "stage", playing := false, effects := false, colors := false,
    transform := false, fill := 0, opacity := 1, last_changed := 0 }

/-- Fixture: a manager with the single deck "stage" at fill 1/2 and one
fills layer. -/
def mgr_half : DeckManager :=
  { group_to_deck := [("G1", "stage")], decks := [("stage", deck_half)],
    groups_by_name := [("G1", group_ex)] }

/-- Fixture: a manager with the single deck "stage" in startup state and
one fills layer. -/
def mgr_zero : DeckManager :=
  { group_to_deck := [("G1", "stage")], decks := [("stage", deck_zero)],
    groups_by_name := [("G1", group_ex)] }

/-- Fixture: deck "left" with nonzero flags, used for multi-deck tests. -/
def deck_left : DeckState :=
  { dname := "left", playing := true, effects := true, colors := false,
    transform := true, fill := 1, opacity := 1, last_changed := 7 }

/-- Fixture: deck "stage" playing at full fill (the state `set_fill 1`
produces from the startup state). -/
def deck_play : DeckState :=
  { dname := "stage", playing := true, effects := false, colors := false,
    transform := false, fill := 1, opacity := 1, last_changed := 0 }

/-- Fixture: a manager holding the two decks "stage" and "left". -/
def mgr_two : DeckManager :=
  { group_to_deck := [("G1", "stage")], decks := [("stage", deck_half), ("left", deck_left)],
    groups_by_name := [("G1", group_ex)] }

/-- Fixture: a deterministic random oracle (first candidate, fallback
column 6, samples take a prefix). -/
def rnd_ex : RandOracle :=
  { pick_idx := fun _ => 0, pick_idx_q := fun _ => 0, fallback_col := 6,
    sample := fun l k => l.take k }

/-! ## Helper lemmas -/

/-- The first component of an invocation is always the rule's action. -/
theorem call_shape_fst (rule : Rule) (ev : DeviceEvent) :
    (call_shape rule ev).1 = rule.action := by
  unfold call_shape
  split
  · cases rule.deck <;> rfl
  · cases rule.deck <;> rfl

/-- An invocation carries a value exactly when its action is
`set_fill`. -/
theorem call_shape_hasValue (rule : Rule) (ev : DeviceEvent) :
    (call_shape rule ev).2.hasValue = (rule.action == "set_fill") := by
  unfold call_shape
  rcases h : (rule.action == "set_fill") with _ | _ <;>
    simp [h] <;> cases rule.deck <;> rfl

/-- Splitting the fired-invocation list over binding-list concatenation:
bindings before and after contribute independently, in order. -/
theorem fired_calls_append (reg : String → Bool) (rs1 rs2 : List Rule)
    (ev : DeviceEvent) (last : ℚ) :
    fired_calls reg (rs1 ++ rs2) ev last =
      fired_calls reg rs1 ev last ++ fired_calls reg rs2 ev last := by
  unfold fired_calls
  rw [List.filter_append, List.map_append]

/-- When every fired handler completes, the dispatch loop performs
exactly the fired invocations, in order, and no exception propagates. -/
theorem dispatch_rules_no_raise (reg : String → Bool)
    (exec : String → CallShape → Bool) (rules : List Rule) (ev : DeviceEvent)
    (last : ℚ)
    (h : ∀ c ∈ fired_calls reg rules ev last, exec c.1 c.2 = true) :
    dispatch_rules reg exec rules ev last = (fired_calls reg rules ev last, false) := by
  induction rules with
  | nil => rfl
  | cons rule rest ih =>
    by_cases hf : rule_fires reg rule ev last
    · have hhead : call_shape rule ev ∈ fired_calls reg (rule :: rest) ev last := by
        unfold fired_calls
        simp [List.filter_cons, hf]
      have hex := h _ hhead
      have htail : ∀ c ∈ fired_calls reg rest ev last, exec c.1 c.2 = true := by
        intro c hc
        refine h c ?_
        unfold fired_calls at hc ⊢
        simp [List.filter_cons, hf]
        simpa using Or.inr (by simpa [fired_calls] using hc)
      unfold dispatch_rules
      simp only [hf, if_true]
      rw [hex, ih htail]
      unfold fired_calls
      simp [List.filter_cons, hf, fired_calls]
    · have htail : ∀ c ∈ fired_calls reg rest ev last, exec c.1 c.2 = true := by
        intro c hc
        refine h c ?_
        unfold fired_calls at hc ⊢
        simp [List.filter_cons, hf]
        simpa [fired_calls] using hc
      unfold dispatch_rules
      simp only [hf, if_false]
      rw [ih htail]
      unfold fired_calls
      simp [List.filter_cons, hf]

/-- Every invocation the dispatch loop makes comes from some rule of the
binding list that matched and fired. -/
theorem dispatch_rules_mem (reg : String → Bool)
    (exec : String → CallShape → Bool) (rules : List Rule) (ev : DeviceEvent)
    (last : ℚ) :
    ∀ ac ∈ (dispatch_rules reg exec rules ev last).1,
      ∃ rule ∈ rules, rule_fires reg rule ev last = true ∧
        ac = call_shape rule ev := by
  induction rules with
  | nil => intro ac hac; simp [dispatch_rules] at hac
  | cons rule rest ih =>
    intro ac hac
    unfold dispatch_rules at hac
    by_cases hf : rule_fires reg rule ev last
    · simp only [hf, if_true] at hac
      by_cases he : exec (call_shape rule ev).1 (call_shape rule ev).2
      · simp only [he, if_true] at hac
        rcases List.mem_cons.mp hac with h1 | h2
        · exact ⟨rule, List.mem_cons_self _ _, hf, h1⟩
        · obtain ⟨r, hr, hfr, hacr⟩ := ih ac h2
          exact ⟨r, List.mem_cons_of_mem _ hr, hfr, hacr⟩
      · simp only [he, if_false] at hac
        rcases List.mem_singleton.mp hac with h1
        exact ⟨rule, List.mem_cons_self _ _, hf, h1⟩
    · simp only [hf, if_false] at hac
      obtain ⟨r, hr, hfr, hacr⟩ := ih ac hac
      exact ⟨r, List.mem_cons_of_mem _ hr, hfr, hacr⟩

/-- When the prefix of a binding list fires without failure and then a
rule's handler raises, the loop stops at that rule: its invocation is the
last one made, the suffix is never examined, and the exception propagates. -/
theorem dispatch_rules_abort (reg : String → Bool)
    (exec : String → CallShape → Bool) (rs1 : List Rule) (rule : Rule)
    (rs2 : List Rule) (ev : DeviceEvent) (last : ℚ)
    (h1 : ∀ c ∈ fired_calls reg rs1 ev last, exec c.1 c.2 = true)
    (h2 : rule_fires reg rule ev last = true)
    (h3 : exec (call_shape rule ev).1 (call_shape rule ev).2 = false) :
    dispatch_rules reg exec (rs1 ++ rule :: rs2) ev last =
      (fired_calls reg rs1 ev last ++ [call_shape rule ev], true) := by
  induction rs1 with
  | nil =>
    unfold dispatch_rules
    simp [h2, h3, fired_calls]
  | cons r rest ih =>
    by_cases hf : rule_fires reg r ev last
    · have hhead : call_shape r ev ∈ fired_calls reg (r :: rest) ev last := by
        unfold fired_calls
        simp [List.filter_cons, hf]
      have hex := h1 _ hhead
      have htail : ∀ c ∈ fired_calls reg rest ev last, exec c.1 c.2 = true := by
        intro c hc
        refine h1 c ?_
        unfold fired_calls at hc ⊢
        simp [List.filter_cons, hf]
        simpa [fired_calls] using Or.inr (by simpa [fired_calls] using hc)
      show dispatch_rules reg exec (r :: (rest ++ rule :: rs2)) ev last = _
      unfold dispatch_rules
      simp only [hf, if_true, hex, if_true]
      rw [ih htail]
      unfold fired_calls
      simp [List.filter_cons, hf]
    · have htail : ∀ c ∈ fired_calls reg rest ev last, exec c.1 c.2 = true := by
        intro c hc
        refine h1 c ?_
        unfold fired_calls at hc ⊢
        simp [List.filter_cons, hf]
        simpa [fired_calls] using hc
      show dispatch_rules reg exec (r :: (rest ++ rule :: rs2)) ev last = _
      unfold dispatch_rules
      simp only [hf, if_false]
      rw [ih htail]
      unfold fired_calls
      simp [List.filter_cons, hf]

/-- Looking up a freshly stored signature returns it. -/
theorem sig_get_set_same {α : Type} (sigs : List (String × α)) (n : String)
    (s : α) : sig_get (sig_set sigs n s) n = some s := by
  unfold sig_get sig_set
  rcases hfind : sigs.find? (fun p => p.1 == n) with _ | q
  · simp only [hfind, List.find?_append]
    simp [List.find?]
  · simp only [hfind]
    rw [List.find?_map]
    have hpred : ((fun p => p.1 == n) ∘ fun (p : String × α) =>
        if p.1 == n then (p.1, s) else p) = (fun p => p.1 == n) := by
      funext p
      simp only [Function.comp_apply]
      split <;> rfl
    rw [hpred, hfind]
    have hq1 : q.1 = n := by simpa using List.find?_some hfind
    simp [hq1]

/-- `update_deck` rewrites the stored state under the updated name and
nothing else: lookups factor through the original association list. -/
theorem get_update_eq (m : DeckManager) (n : String) (d : DeckState)
    (n1 : String) :
    get_deck (update_deck m n d) n1 =
      (m.decks.find? (fun p => p.1 == n1)).map
        (fun p => if p.1 == n then d else p.2) := by
  unfold get_deck update_deck
  simp only
  rw [List.find?_map]
  have hpred : ((fun p => p.1 == n1) ∘ fun (p : String × DeckState) =>
      if p.1 == n then (p.1, d) else p) = (fun p => p.1 == n1) := by
    funext p
    simp only [Function.comp_apply]
    split <;> rfl
  rw [hpred]
  rcases hfind : m.decks.find? (fun p => p.1 == n1) with _ | p
  · rw [hfind]; rfl
  · rw [hfind]
    by_cases hp1 : p.1 = n <;> simp [hp1]

/-- Updating a known deck stores the new state under its name. -/
theorem get_update_same (m : DeckManager) (n : String) (d d0 : DeckState)
    (h : get_deck m n = some d0) :
    get_deck (update_deck m n d) n = some d := by
  rw [get_update_eq]
  unfold get_deck at h
  rcases hfind : m.decks.find? (fun p => p.1 == n) with _ | p
  · rw [hfind] at h; simp at h
  · have hp1 : p.1 = n := by simpa using List.find?_some hfind
    rw [hfind]
    simp [hp1]

/-- Updating one deck leaves lookups of other names unchanged. -/
theorem get_update_other (m : DeckManager) (n : String) (d : DeckState)
    (n1 : String) (h : n1 ≠ n) :
    get_deck (update_deck m n d) n1 = get_deck m n1 := by
  rw [get_update_eq]
  unfold get_deck
  rcases hfind : m.decks.find? (fun p => p.1 == n1) with _ | p
  · rw [hfind]; rfl
  · have hp1 : p.1 = n1 := by simpa using List.find?_some hfind
    rw [hfind]
    simp [hp1, h]

/-- Updating an unknown name is invisible to its own lookup. -/
theorem get_update_none (m : DeckManager) (n : String) (d : DeckState)
    (h : get_deck m n = none) :
    get_deck (update_deck m n d) n = none := by
  rw [get_update_eq]
  unfold get_deck at h
  rcases hfind : m.decks.find? (fun p => p.1 == n) with _ | p
  · rw [hfind]; rfl
  · rw [hfind] at h; simp at h

/-- A successful deck lookup exhibits a member of the deck list. -/
theorem get_deck_mem (m : DeckManager) (n : String) (d : DeckState)
    (h : get_deck m n = some d) : ∃ p ∈ m.decks, p.2 = d := by
  unfold get_deck at h
  rcases hfind : m.decks.find? (fun p => p.1 == n) with _ | p
  · rw [hfind] at h; simp at h
  · rw [hfind] at h
    refine ⟨p, List.mem_of_find?_eq_some hfind, ?_⟩
    simpa using h

/-- Topology queries ignore deck-state updates (`update_deck` touches only
the `decks` map). -/
theorem layers_update (m : DeckManager) (n : String) (d : DeckState)
    (deck t : String) :
    layers_of_type_for_deck (update_deck m n d) deck t =
      layers_of_type_for_deck m deck t := rfl

/-- `update_deck` preserves the [0,1] invariant when the new state
satisfies it. -/
theorem update_deck_inv (m : DeckManager) (n : String) (d : DeckState)
    (hm : deck_inv m) (hd : 0 ≤ d.fill ∧ d.fill ≤ 1 ∧ 0 ≤ d.opacity ∧ d.opacity ≤ 1) :
    deck_inv (update_deck m n d) := by
  intro n1 d1 h1
  by_cases he : n1 = n
  · subst he
    rcases h0 : get_deck m n1 with _ | d0
    · rw [get_update_none m n1 d h0] at h1
      cases h1
    · rw [get_update_same m n1 d d0 h0] at h1
      cases h1
      exact hd
  · rw [get_update_other m n d n1 he] at h1
    exact hm n1 d1 h1

/-- `clamp01` lands in [0,1]. -/
theorem clamp01_mem (v : ℚ) : 0 ≤ clamp01 v ∧ clamp01 v ≤ 1 := by
  unfold clamp01
  constructor
  · exact le_max_left _ _
  · apply max_le (by norm_num)
    exact min_le_left _ _

/-- `clamp01` fixes values already in [0,1]. -/
theorem clamp01_id (v : ℚ) (h0 : 0 ≤ v) (h1 : v ≤ 1) : clamp01 v = v := by
  unfold clamp01
  rw [min_eq_right h1, max_eq_right h0]

/-- The claim's "divide when the magnitude exceeds 1" coincides with the
code's "divide when the value exceeds 1": for v < -1 both sides clamp
to 0. -/
theorem clamp_abs_div (v : ℚ) :
    (if |v| > 1 then clamp01 (v / 127) else clamp01 v) =
      (if v > 1 then clamp01 (v / 127) else clamp01 v) := by
  by_cases hv : v > 1
  · have : |v| > 1 := by rw [abs_of_pos (by linarith)]; exact hv
    simp [hv, this]
  · by_cases ha : |v| > 1
    · have hneg : v < -1 := by
        rcases abs_cases v with ⟨h1, _⟩ | ⟨h1, _⟩ <;> [skip; linarith] <;>
          (rw [h1] at ha; linarith)
      have e1 : clamp01 (v / 127) = 0 := by
        unfold clamp01
        rw [min_eq_right (by linarith), max_eq_left (by linarith)]
      have e2 : clamp01 v = 0 := by
        unfold clamp01
        rw [min_eq_right (by linarith), max_eq_left (by linarith)]
      simp [ha, hv, e1, e2]
    · simp [ha, hv]

/-- Every rendered fill-selection command is a clip-connect command. -/
theorem toOsc_isConnectClip (fc : FillCmd) : (FillCmd.toOsc fc).isConnectClip = true := by
  cases fc <;> rfl

/-- Deck status messages are never clip-connect commands. -/
theorem deck_state_msgs_no_connect (deck : String) (d : DeckState) :
    ∀ c ∈ deck_state_msgs deck d, c.isConnectClip = false := by
  intro c hc
  simp only [deck_state_msgs, List.mem_cons, List.mem_singleton] at hc
  rcases hc with rfl | rfl | rfl | rfl | rfl | hc
  · rfl
  · rfl
  · rfl
  · rfl
  · rfl
  · simp at hc

/-- `_send_deck_state` emits no clip-connect command. -/
theorem send_deck_state_no_connect (m : DeckManager) (deck : String) :
    ∀ c ∈ send_deck_state m deck, c.isConnectClip = false := by
  intro c hc
  unfold send_deck_state at hc
  rcases h : get_deck m deck with _ | d
  · rw [h] at hc; simp at hc
  · rw [h] at hc
    exact deck_state_msgs_no_connect deck d c hc

/-- At an exact canonical step with at least one fills layer, the fill
selection emits at least one command. -/
theorem fire_fills_ne_nil_of_step (m : DeckManager) (rnd : RandOracle)
    (deck : String) (w : ℚ)
    (hl : layers_of_type_for_deck m deck "fills" ≠ [])
    (hw : w = 0 ∨ w = 1/4 ∨ w = 1/2 ∨ w = 3/4 ∨ w = 1) :
    fire_fills_for_deck m rnd deck w ≠ [] := by
  have hn : ((layers_of_type_for_deck m deck "fills").length == 0) = false := by
    simpa [List.length_eq_zero] using hl
  rcases hw with rfl | rfl | rfl | rfl | rfl <;>
    norm_num [fire_fills_for_deck, hn, ratio_map, min_def, max_def,
      List.map_eq_nil, hl]

/-- Away from every exact canonical step (for a value already in [0,1])
the fill selection emits nothing: the near-step tolerance of `set_fill`
does not survive the exact dictionary lookup inside
`_fire_fills_for_deck`. -/
theorem fire_fills_eq_nil_off_step (m : DeckManager) (rnd : RandOracle)
    (deck : String) (w : ℚ) (h0 : 0 ≤ w) (h1 : w ≤ 1)
    (hw : ¬(w = 0 ∨ w = 1/4 ∨ w = 1/2 ∨ w = 3/4 ∨ w = 1)) :
    fire_fills_for_deck m rnd deck w = [] := by
  push_neg at hw
  obtain ⟨hw0, hw14, hw12, hw34, hw1⟩ := hw
  have hf : max 0 (min 1 w) = w := clamp01_id w h0 h1
  by_cases hn : ((layers_of_type_for_deck m deck "fills").length == 0) = true
  · simp [fire_fills_for_deck, hn]
  · simp only [Bool.not_eq_true] at hn
    have hw14b : w ≠ 4⁻¹ := by simpa [← one_div] using hw14
    have hw12b : w ≠ 2⁻¹ := by simpa [← one_div] using hw12
    simp [fire_fills_for_deck, hn, hf, ratio_map, hw0, hw14, hw12, hw34, hw1,
      hw14b, hw12b]

/-- The randomly chosen canonical fill step of `random_fills` lies
in [0,1]. -/
theorem choiceQ_steps_bounds (rnd : RandOracle) :
    0 ≤ rnd.choiceQ [0, 1/4, 1/2, 3/4, 1] ∧
      rnd.choiceQ [0, 1/4, 1/2, 3/4, 1] ≤ 1 := by
  unfold RandOracle.choiceQ
  set i := rnd.pick_idx_q [0, 1/4, 1/2, 3/4, 1] %
    [(0 : ℚ), 1/4, 1/2, 3/4, 1].length with hi
  have h5 : i < 5 := by
    rw [hi]
    simpa using Nat.mod_lt _ (by norm_num)
  interval_cases i <;> norm_num [List.getD]

/-- An update built from an existing deck preserves every deck's
`last_changed` when the new state keeps it. -/
theorem lc_update (m : DeckManager) (deck : String) (d d1 : DeckState)
    (h : get_deck m deck = some d) (hlc : d1.last_changed = d.last_changed) :
    lc_preserved m (update_deck m deck d1) := by
  intro n1
  by_cases hn : n1 = deck
  · subst hn
    rw [get_update_same m n1 d1 d h, h]
    simp [hlc]
  · rw [get_update_other m deck d1 n1 hn]

/-- Reflexivity of `lc_preserved`. -/
theorem lc_refl (m : DeckManager) : lc_preserved m m := fun _ => rfl

/-- At fill 0 the selection stops every fills layer. -/
theorem fire_fills_zero (m : DeckManager) (rnd : RandOracle) (deck : String)
    (hl : layers_of_type_for_deck m deck "fills" ≠ []) :
    fire_fills_for_deck m rnd deck 0 =
      (layers_of_type_for_deck m deck "fills").map
        (fun li => FillCmd.stop li.index (stop_column li)) := by
  have hn : ((layers_of_type_for_deck m deck "fills").length == 0) = false := by
    simpa [List.length_eq_zero] using hl
  norm_num [fire_fills_for_deck, hn, min_def, max_def]

/-- At fill 1 the selection activates every fills layer. -/
theorem fire_fills_one (m : DeckManager) (rnd : RandOracle) (deck : String)
    (hl : layers_of_type_for_deck m deck "fills" ≠ []) :
    fire_fills_for_deck m rnd deck 1 =
      (layers_of_type_for_deck m deck "fills").map
        (fun li => FillCmd.activate li.index (pick_column rnd li)) := by
  have hn : ((layers_of_type_for_deck m deck "fills").length == 0) = false := by
    simpa [List.length_eq_zero] using hl
  norm_num [fire_fills_for_deck, hn, ratio_map, min_def, max_def]
  intro a ha hcontra
  exact absurd rfl (hcontra a ha)

/-- C9: invoking any deck-scoped handler of the Action Registry with a
deck name unknown to the `DeckManager` mutates nothing — deck states and
topology are returned untouched — and emits no downstream command. -/
theorem C9_unknown_deck_noop (m : DeckManager) (rnd : RandOracle)
    (deck : String) (v : ℚ) (h : get_deck m deck = none) :
    toggle_effects m rnd deck = (m, []) ∧
    toggle_colors m rnd deck = (m, []) ∧
    toggle_transform m rnd deck = (m, []) ∧
    set_fill m rnd deck v = (m, []) ∧
    set_opacity m deck v = (m, []) ∧
    stop_deck m deck = (m, []) ∧
    random_fills m rnd deck = (m, []) ∧
    next_clip m deck = (m, []) ∧
    next_or_random m rnd deck = (m, []) := by
  refine ⟨?_, ?_, ?_, ?_, ?_, ?_, ?_, ?_, ?_⟩ <;>
    simp [toggle_effects, toggle_colors, toggle_transform, set_fill,
      set_opacity, stop_deck, random_fills, next_clip, next_or_random, h]

/-- Witness for C9 at a concrete manager and the unknown deck "ghost". -/
theorem C9_unknown_deck_noop_witness :
    get_deck mgr_zero "ghost" = none ∧
    toggle_effects mgr_zero rnd_ex "ghost" = (mgr_zero, []) ∧
    set_fill mgr_zero rnd_ex "ghost" 1 = (mgr_zero, []) ∧
    stop_deck mgr_zero "ghost" = (mgr_zero, []) := by
  have h : get_deck mgr_zero "ghost" = none := by decide
  have r := C9_unknown_deck_noop mgr_zero rnd_ex "ghost" 1 h
  exact ⟨h, r.1, r.2.2.2.1, r.2.2.2.2.2.1⟩

/-- C7: with at least one fills-typed layer, the discrete fill selection
at value 0 sends a stop command to every fills layer and no activation,
and at value 1 sends an activation to every fills layer and no stop. -/
theorem C7_fill_boundary (m : DeckManager) (rnd : RandOracle) (deck : String)
    (hl : layers_of_type_for_deck m deck "fills" ≠ []) :
    (∀ li ∈ layers_of_type_for_deck m deck "fills",
      FillCmd.stop li.index (stop_column li) ∈ fire_fills_for_deck m rnd deck 0) ∧
    (∀ i c, FillCmd.activate i c ∉ fire_fills_for_deck m rnd deck 0) ∧
    (∀ li ∈ layers_of_type_for_deck m deck "fills",
      FillCmd.activate li.index (pick_column rnd li) ∈
        fire_fills_for_deck m rnd deck 1) ∧
    (∀ i c, FillCmd.stop i c ∉ fire_fills_for_deck m rnd deck 1) := by
  rw [fire_fills_zero m rnd deck hl, fire_fills_one m rnd deck hl]
  refine ⟨?_, ?_, ?_, ?_⟩
  · intro li hli
    exact List.mem_map_of_mem _ hli
  · intro i c hmem
    obtain ⟨li, _, heq⟩ := List.mem_map.mp hmem
    simp at heq
  · intro li hli
    exact List.mem_map_of_mem _ hli
  · intro i c hmem
    obtain ⟨li, _, heq⟩ := List.mem_map.mp hmem
    simp at heq

/-- Witness for C7 on a concrete one-layer topology. -/
theorem C7_fill_boundary_witness :
    FillCmd.stop 3 1 ∈ fire_fills_for_deck mgr_zero rnd_ex "stage" 0 ∧
    FillCmd.activate 3 2 ∈ fire_fills_for_deck mgr_zero rnd_ex "stage" 1 := by
  have hl : layers_of_type_for_deck mgr_zero "stage" "fills" ≠ [] := by decide
  have r := C7_fill_boundary mgr_zero rnd_ex "stage" hl
  have h3 : layer_f1 ∈ layers_of_type_for_deck mgr_zero "stage" "fills" := by decide
  exact ⟨r.1 layer_f1 h3, r.2.2.1 layer_f1 h3⟩

/-- C5: for a buttonish control, an edge-gated binding fires on press
exactly when the cached previous value (default 0) is zero and the new
value non-zero, and on release exactly when the previous value is
non-zero and the new value zero; the cache is updated on every event
whether or not any binding matches; the raw sequence [0, 90, 0] on a
note control produces exactly one press invocation and one release
invocation, and [0, 0, 0] produces neither. -/
theorem C5_edge_detection :
    (∀ (reg : String → Bool) (rule : Rule) (ev : DeviceEvent) (cache : Cache),
      is_buttonish ev.control = true →
      (rule.device == ev.device) = true →
      match_pattern ev.control rule.control = true →
      reg rule.action = true →
      ((rule.edge = "press" →
         (rule_fires reg rule ev (cache_get cache (ev.device, ev.control)) = true ↔
           (cache_get cache (ev.device, ev.control) = 0 ∧ ev.value ≠ 0))) ∧
       (rule.edge = "release" →
         (rule_fires reg rule ev (cache_get cache (ev.device, ev.control)) = true ↔
           (cache_get cache (ev.device, ev.control) ≠ 0 ∧ ev.value = 0))))) ∧
    (∀ (reg : String → Bool) (exec : String → CallShape → Bool)
       (bindings : List Rule) (cache : Cache) (ev : DeviceEvent),
      (handle_event reg exec bindings cache ev).cache =
        cache_set cache (ev.device, ev.control) ev.value) ∧
    (run_events registry_has exec_arity [press_rule, release_rule] []
        [note_ev 0, note_ev 90, note_ev 0]).2 =
      [[], [("toggle_effects", CallShape.deckOnly "stage")],
       [("stop_deck", CallShape.deckOnly "stage")]] ∧
    (run_events registry_has exec_arity [press_rule, release_rule] []
        [note_ev 0, note_ev 0, note_ev 0]).2 = [[], [], []] := by
  refine ⟨?_, ?_, ?_, ?_⟩
  · intro reg rule ev cache hb hdev hpat hreg
    constructor
    · intro hedge
      unfold rule_fires edge_fired
      rw [hedge]
      simp [hdev, hpat, hreg, hb]
    · intro hedge
      unfold rule_fires edge_fired
      rw [hedge]
      have h1 : (("release" : String) == "press") = false := rfl
      have h2 : (("release" : String) == "release") = true := rfl
      simp [hdev, hpat, hreg, hb, h1, h2]
  · intro reg exec bindings cache ev
    rfl
  · decide
  · decide

/-- Witness for C5 at a concrete binding and event. -/
theorem C5_edge_detection_witness :
    rule_fires registry_has press_rule (note_ev 90)
      (cache_get [] ("apc40", note48)) = true := by
  have h := (C5_edge_detection.1 registry_has press_rule (note_ev 90) []
    (by decide) (by decide) (by decide) (by decide)).1 rfl
  refine h.mpr ⟨by decide, by norm_num [note_ev]⟩

/-- C6 counterexample: the claim that every matching, edge-satisfying
binding fires fails twice on the code — an exception from an earlier
handler (here `set_opacity` invoked with one positional argument)
prevents a later matching binding from firing, and a matching binding
whose action is not in the registry never fires at all. -/
theorem C6_counterexample :
    (rule_fires registry_has joy_colors_rule (joy_ev 1)
        (cache_get [] ("joystick", Control.name "button_0")) = true ∧
     ("toggle_colors", CallShape.deckOnly "left") ∉
        (handle_event registry_has exec_arity [joy_op_rule, joy_colors_rule]
          [] (joy_ev 1)).calls) ∧
    ((joy_unknown_rule.device == (joy_ev 1).device) = true ∧
     match_pattern (joy_ev 1).control joy_unknown_rule.control = true ∧
     edge_fired (joy_ev 1).control joy_unknown_rule.edge
        (cache_get [] ("joystick", Control.name "button_0")) (joy_ev 1).value = true ∧
     (handle_event registry_has exec_arity [joy_unknown_rule] [] (joy_ev 1)).calls
        = []) := by
  decide

/-- C6 amended: provided every fired handler completes (and counting only
bindings whose action resolves in the registry), all matching,
edge-satisfying bindings fire, in binding-list order, with no first-match
short-circuit — the fired invocations of concatenated binding segments
are the concatenation of each segment's fired invocations. -/
theorem C6_amended (reg : String → Bool) (exec : String → CallShape → Bool)
    (rules : List Rule) (cache : Cache) (ev : DeviceEvent)
    (h : ∀ c ∈ fired_calls reg rules ev (cache_get cache (ev.device, ev.control)),
      exec c.1 c.2 = true) :
    (handle_event reg exec rules cache ev).calls =
      fired_calls reg rules ev (cache_get cache (ev.device, ev.control)) ∧
    (handle_event reg exec rules cache ev).raised = false ∧
    (∀ (rs1 rs2 : List Rule) (last : ℚ),
      fired_calls reg (rs1 ++ rs2) ev last =
        fired_calls reg rs1 ev last ++ fired_calls reg rs2 ev last) := by
  have hd := dispatch_rules_no_raise reg exec rules ev
    (cache_get cache (ev.device, ev.control)) h
  refine ⟨?_, ?_, ?_⟩
  · show (dispatch_rules reg exec rules ev _).1 = _
    rw [hd]
  · show (dispatch_rules reg exec rules ev _).2 = _
    rw [hd]
  · intro rs1 rs2 last
    exact fired_calls_append reg rs1 rs2 ev last

/-- Witness for C6 amended: a two-binding list where both bindings match
and both handlers complete fires both, in order. -/
theorem C6_amended_witness :
    (handle_event registry_has exec_arity [press_rule, joy_colors_rule] []
      (note_ev 90)).calls =
      fired_calls registry_has [press_rule, joy_colors_rule] (note_ev 90)
        (cache_get [] ("apc40", note48)) :=
  (C6_amended registry_has exec_arity [press_rule, joy_colors_rule] []
    (note_ev 90) (by decide)).1

/-- C1 counterexample: an exception raised by an invoked handler is NOT
caught by the dispatch loop of `handle_event` — here the first binding
resolves `set_opacity` and invokes it with a single positional argument
(a `TypeError`), the exception propagates, and the second matching,
edge-satisfying binding (`toggle_effects`) is never evaluated. -/
theorem C1_counterexample :
    (handle_event registry_has exec_arity [opacity_note_rule, press_rule] []
        (note_ev 90)).raised = true ∧
    (handle_event registry_has exec_arity [opacity_note_rule, press_rule] []
        (note_ev 90)).calls = [("set_opacity", CallShape.deckOnly "stage")] ∧
    rule_fires registry_has press_rule (note_ev 90)
      (cache_get [] ("apc40", note48)) = true ∧
    ("toggle_effects", CallShape.deckOnly "stage") ∉
      (handle_event registry_has exec_arity [opacity_note_rule, press_rule] []
        (note_ev 90)).calls := by
  decide

/-- C1 amended: when the bindings before some rule all fire successfully
and that rule's handler raises, `handle_event` stops at that rule: the
exception propagates out (nothing catches it in the dispatch loop) and
the bindings after it — matching or not — are never evaluated. -/
theorem C1_amended (reg : String → Bool) (exec : String → CallShape → Bool)
    (cache : Cache) (ev : DeviceEvent) (rs1 : List Rule) (rule : Rule)
    (rs2 : List Rule)
    (h1 : ∀ c ∈ fired_calls reg rs1 ev (cache_get cache (ev.device, ev.control)),
      exec c.1 c.2 = true)
    (h2 : rule_fires reg rule ev (cache_get cache (ev.device, ev.control)) = true)
    (h3 : exec (call_shape rule ev).1 (call_shape rule ev).2 = false) :
    (handle_event reg exec (rs1 ++ rule :: rs2) cache ev).raised = true ∧
    (handle_event reg exec (rs1 ++ rule :: rs2) cache ev).calls =
      fired_calls reg rs1 ev (cache_get cache (ev.device, ev.control)) ++
        [call_shape rule ev] := by
  have hd := dispatch_rules_abort reg exec rs1 rule rs2 ev
    (cache_get cache (ev.device, ev.control)) h1 h2 h3
  constructor
  · show (dispatch_rules reg exec (rs1 ++ rule :: rs2) ev _).2 = _
    rw [hd]
  · show (dispatch_rules reg exec (rs1 ++ rule :: rs2) ev _).1 = _
    rw [hd]

/-- Witness for C1 amended at a concrete raising binding. -/
theorem C1_amended_witness :
    (handle_event registry_has exec_arity [press_rule, opacity_note_rule, release_rule]
        [] (note_ev 90)).raised = true :=
  (C1_amended registry_has exec_arity [] (note_ev 90) [press_rule]
    opacity_note_rule [release_rule] (by decide) (by decide) (by decide)).1

/-- C2 counterexample: a matching, edge-satisfying binding on a
value-bearing cc-kind control whose action is `set_opacity` is invoked
WITHOUT any value argument — the dispatch loop passes a value only to
`set_fill`. -/
theorem C2_counterexample :
    continuous_source (cc_ev 64).control = true ∧
    (handle_event registry_has exec_arity [opacity_cc_rule] [] (cc_ev 64)).calls =
      [("set_opacity", CallShape.deckOnly "stage")] ∧
    CallShape.hasValue (CallShape.deckOnly "stage") = false := by
  decide

/-- C2 amended: an invocation made by the dispatch loop carries a value
argument exactly when its action is `set_fill`; each invocation comes
from a binding of the list, and for `set_fill` the value passed is the
binding's `fixed_value` when present, otherwise the normalized event
value, with the deck name passed exactly when the binding names a deck.
All other actions are invoked without a value, whatever the control. -/
theorem C2_amended (reg : String → Bool) (exec : String → CallShape → Bool)
    (bindings : List Rule) (cache : Cache) (ev : DeviceEvent) :
    ∀ ac ∈ (handle_event reg exec bindings cache ev).calls,
      ac.2.hasValue = (ac.1 == "set_fill") ∧
      ∃ rule ∈ bindings, ac = call_shape rule ev ∧
        (rule.action = "set_fill" →
          ac.2 = (match rule.deck with
            | some dk => CallShape.deckValue dk
                (rule.fixed_value.getD (scale_to_01 ev.control ev.value rule.value_scale))
            | none => CallShape.valueOnly
                (rule.fixed_value.getD (scale_to_01 ev.control ev.value rule.value_scale)))) := by
  intro ac hac
  have hmem := dispatch_rules_mem reg exec bindings ev
    (cache_get cache (ev.device, ev.control)) ac hac
  obtain ⟨rule, hrule, hfires, hacr⟩ := hmem
  subst hacr
  refine ⟨?_, rule, hrule, rfl, ?_⟩
  · rw [call_shape_hasValue, call_shape_fst]
  · intro hsf
    have hb : (rule.action == "set_fill") = true := by simp [hsf]
    unfold call_shape
    rw [hb]
    simp only [if_true]
    rcases rule.deck with _ | dk <;> rcases hfv : rule.fixed_value with _ | f <;>
      simp [hfv]

/-- Witness for C2 amended: the sole invocation produced by a `set_fill`
binding with fixed value 1 carries a value argument. -/
theorem C2_amended_witness :
    ∃ ac ∈ (handle_event registry_has exec_arity
        [{ device := "apc40", control := some cc21, action := "set_fill",
           deck := some "stage", edge := "both", fixed_value := some 1,
           value_scale := none }] [] (cc_ev 64)).calls,
      ac.2.hasValue = (ac.1 == "set_fill") := by
  refine ⟨("set_fill", CallShape.deckValue "stage" 1), by decide, ?_⟩
  exact (C2_amended registry_has exec_arity
    [{ device := "apc40", control := some cc21, action := "set_fill",
       deck := some "stage", edge := "both", fixed_value := some 1,
       value_scale := none }] [] (cc_ev 64) _ (by decide)).1

/-- Conditional deck-state pushes emit no clip-connect command. -/
theorem state_cmds_no_connect (b : Bool) (m : DeckManager) (deck : String) :
    ∀ c ∈ (if b then send_deck_state m deck else []), c.isConnectClip = false := by
  cases b
  · simp
  · simpa using send_deck_state_no_connect m deck

/-- Re-asserting `playing := true` on a deck already playing changes
nothing. -/
theorem set_playing_true_eq (d : DeckState) (h : d.playing = true) :
    ({ d with playing := true } : DeckState) = d := by
  cases d
  simp_all

/-- Characterization of `set_fill` on a known deck.  Writing
`w = clamp01 (v/127)` for `|v| > 1` and `w = clamp01 v` otherwise (the
claim's reading, provably equal to the code's `v > 1` test): the deck's
fill becomes `w` only when that moves it by more than 1e-6, `playing` is
forced true, and — when the deck has fills-typed layers — clip-connect
commands are emitted iff `w` is exactly a canonical step. -/
theorem set_fill_fst (m : DeckManager) (rnd : RandOracle) (deck : String)
    (d : DeckState) (v : ℚ) (h : get_deck m deck = some d) :
    (set_fill m rnd deck v).1 = update_deck m deck (set_fill_next d v) := by
  have hw : max 0 (min 1 (if v > 1 then v / 127 else v)) = set_fill_clamped v := by
    rw [set_fill_clamped, clamp_abs_div]
    by_cases hv : v > 1 <;> simp [hv, clamp01]
  simp only [set_fill, h, hw]
  congr 1
  rw [set_fill_next]
  by_cases h1 : |d.fill - set_fill_clamped v| > 1/1000000
  · simp only [h1, if_true]
    by_cases h2 : d.playing
    · have hcond : ¬ ((!d.playing) = true) := by simp [h2]
      rw [if_neg hcond]
      exact (set_playing_true_eq { d with fill := set_fill_clamped v } h2).symm
    · have hp : d.playing = false := by simpa using h2
      simp [hp]
  · simp only [h1, if_false]
    by_cases h2 : d.playing
    · have hcond : ¬ ((!d.playing) = true) := by simp [h2]
      rw [if_neg hcond]
      exact (set_playing_true_eq d h2).symm
    · have hp : d.playing = false := by simpa using h2
      simp [hp]

theorem set_fill_spec (m : DeckManager) (rnd : RandOracle) (deck : String)
    (d : DeckState) (v : ℚ) (h : get_deck m deck = some d) :
    get_deck (set_fill m rnd deck v).1 deck = some (set_fill_next d v) ∧
    (layers_of_type_for_deck m deck "fills" ≠ [] →
      ((∃ c ∈ (set_fill m rnd deck v).2, c.isConnectClip = true) ↔
        set_fill_clamped v ∈ fill_steps)) := by
  have hw : max 0 (min 1 (if v > 1 then v / 127 else v)) = set_fill_clamped v := by
    rw [set_fill_clamped, clamp_abs_div]
    by_cases hv : v > 1 <;> simp [hv, clamp01]
  have hw0 : 0 ≤ set_fill_clamped v := by
    rw [set_fill_clamped]
    by_cases hv : |v| > 1 <;> simp [hv, (clamp01_mem _).1]
  have hw1 : set_fill_clamped v ≤ 1 := by
    rw [set_fill_clamped]
    by_cases hv : |v| > 1 <;> simp [hv, (clamp01_mem _).2]
  constructor
  · rw [set_fill_fst m rnd deck d v h]
    exact get_update_same m deck _ d h
  · intro hl
    simp only [set_fill, h, hw]
    constructor
    · rintro ⟨c, hc, hcy⟩
      rcases List.mem_append.mp hc with hcf | hcs
      · by_cases hs : (([(0:ℚ), 1/4, 1/2, 3/4, 1].any
            fun s => |set_fill_clamped v - s| < 1/10000)) = true
        · rw [if_pos hs] at hcf
          by_cases hstep : set_fill_clamped v ∈ fill_steps
          · exact hstep
          · exfalso
            rw [fire_fills_eq_nil_off_step _ _ _ _ hw0 hw1
              (by simpa [fill_steps] using hstep)] at hcf
            simp at hcf
        · rw [if_neg hs] at hcf
          simp at hcf
      · exfalso
        have hfalse := state_cmds_no_connect _ _ deck c hcs
        rw [hfalse] at hcy
        exact Bool.false_ne_true hcy
    · intro hstep
      have hany : (([(0:ℚ), 1/4, 1/2, 3/4, 1].any
          fun s => |set_fill_clamped v - s| < 1/10000)) = true := by
        refine List.any_eq_true.mpr ⟨set_fill_clamped v, by simpa [fill_steps] using hstep, ?_⟩
        simp only [sub_self, abs_zero, decide_eq_true_eq]
        norm_num
      have hne : fire_fills_for_deck m rnd deck (set_fill_clamped v) ≠ [] :=
        fire_fills_ne_nil_of_step m rnd deck _ hl (by simpa [fill_steps] using hstep)
      obtain ⟨fc, hfc⟩ := List.exists_mem_of_ne_nil _ hne
      refine ⟨FillCmd.toOsc fc, ?_, toOsc_isConnectClip fc⟩
      apply List.mem_append_left
      rw [if_pos hany]
      exact List.mem_map_of_mem _ hfc

/-- C3 amended: for an existing deck, `set_fill(deck, v)` computes
`clamp(v/127, 0, 1)` when `|v| > 1` and `clamp(v, 0, 1)` otherwise, but
stores it only when it moves the current fill by more than 1e-6
(otherwise fill is left unchanged); `playing` is always forced true; and
(with fills layers present) the fill-selection commands are emitted
exactly when the computed value is EXACTLY one of {0, 1/4, 1/2, 3/4, 1} —
a value merely within 1e-4 of a step triggers the internal call but emits
nothing. -/
theorem C3_amended (m : DeckManager) (rnd : RandOracle) (deck : String)
    (d : DeckState) (v : ℚ) (h : get_deck m deck = some d) :
    get_deck (set_fill m rnd deck v).1 deck = some (set_fill_next d v) ∧
    (set_fill_next d v).playing = true ∧
    (layers_of_type_for_deck m deck "fills" ≠ [] →
      ((∃ c ∈ (set_fill m rnd deck v).2, c.isConnectClip = true) ↔
        set_fill_clamped v ∈ fill_steps)) := by
  obtain ⟨h1, h2⟩ := set_fill_spec m rnd deck d v h
  refine ⟨h1, ?_, h2⟩
  unfold set_fill_next
  split <;> rfl

/-- Witness for C3 amended at the spec's own example `set_fill(deck, 1.5)`. -/
theorem C3_amended_witness :
    get_deck mgr_zero "stage" = some deck_zero ∧
    get_deck (set_fill mgr_zero rnd_ex "stage" (3/2)).1 "stage" =
      some (set_fill_next deck_zero (3/2)) ∧
    (set_fill_next deck_zero (3/2)).playing = true := by
  have h : get_deck mgr_zero "stage" = some deck_zero := rfl
  have r := C3_amended mgr_zero rnd_ex "stage" deck_zero (3/2) h
  exact ⟨h, r.1, r.2.1⟩

/-- C3 counterexample: (a) a new value within 1e-6 of the current fill is
NOT stored — `set_fill(stage, 1/2 + 1/2000000)` on fill 1/2 leaves the
fill at 1/2, not the claimed clamp of the argument; (b) a value within
1e-4 of a step but not exactly on it is stored yet triggers NO
fill-selection command, against the claimed "exactly when within 1e-4". -/
theorem C3_counterexample :
    ((get_deck (set_fill mgr_half rnd_ex "stage" (1/2 + 1/2000000)).1 "stage").map
        DeckState.fill = some (1/2) ∧ (1/2 : ℚ) ≠ 1/2 + 1/2000000) ∧
    (layers_of_type_for_deck mgr_zero "stage" "fills" ≠ [] ∧
     |((1/4 : ℚ) + 1/20000) - 1/4| < 1/10000 ∧
     (get_deck (set_fill mgr_zero rnd_ex "stage" (1/4 + 1/20000)).1 "stage").map
        DeckState.fill = some (1/4 + 1/20000) ∧
     ∀ c ∈ (set_fill mgr_zero rnd_ex "stage" (1/4 + 1/20000)).2,
        c.isConnectClip = false) := by
  constructor
  · have hga : get_deck mgr_half "stage" = some deck_half := rfl
    have hsa := (set_fill_spec mgr_half rnd_ex "stage" deck_half
      (1/2 + 1/2000000) hga).1
    have hclamp : set_fill_clamped (1/2 + 1/2000000) = 1/2 + 1/2000000 := by
      unfold set_fill_clamped
      have habs : |(1/2 + 1/2000000 : ℚ)| = 1/2 + 1/2000000 :=
        abs_of_nonneg (by norm_num)
      rw [if_neg (by rw [habs]; norm_num)]
      exact clamp01_id _ (by norm_num) (by norm_num)
    have hnext : set_fill_next deck_half (1/2 + 1/2000000) = deck_half := by
      unfold set_fill_next
      rw [hclamp]
      have hfill : deck_half.fill = 1/2 := rfl
      have habs2 : |deck_half.fill - (1/2 + 1/2000000)| = 1/2000000 := by
        rw [hfill, show (1/2 : ℚ) - (1/2 + 1/2000000) = -(1/2000000) by ring,
          abs_neg, abs_of_nonneg (by norm_num)]
      rw [habs2, if_neg (by norm_num)]
      exact set_playing_true_eq deck_half rfl
    rw [hsa, hnext]
    exact ⟨rfl, by norm_num⟩
  · have hgb : get_deck mgr_zero "stage" = some deck_zero := rfl
    have hsb := set_fill_spec mgr_zero rnd_ex "stage" deck_zero
      (1/4 + 1/20000) hgb
    have hclampb : set_fill_clamped (1/4 + 1/20000) = 1/4 + 1/20000 := by
      unfold set_fill_clamped
      have habs : |(1/4 + 1/20000 : ℚ)| = 1/4 + 1/20000 :=
        abs_of_nonneg (by norm_num)
      rw [if_neg (by rw [habs]; norm_num)]
      exact clamp01_id _ (by norm_num) (by norm_num)
    have hl : layers_of_type_for_deck mgr_zero "stage" "fills" ≠ [] := by decide
    refine ⟨hl, ?_, ?_, ?_⟩
    · rw [show ((1/4 : ℚ) + 1/20000) - 1/4 = 1/20000 by ring,
        abs_of_nonneg (by norm_num)]
      norm_num
    · have hnextb : set_fill_next deck_zero (1/4 + 1/20000) =
          { deck_zero with fill := 1/4 + 1/20000, playing := true } := by
        unfold set_fill_next
        rw [hclampb]
        have hfill : deck_zero.fill = 0 := rfl
        have habs2 : |deck_zero.fill - (1/4 + 1/20000)| = 1/4 + 1/20000 := by
          rw [hfill, show (0 : ℚ) - (1/4 + 1/20000) = -(1/4 + 1/20000) by ring,
            abs_neg, abs_of_nonneg (by norm_num)]
        rw [habs2, if_pos (by norm_num)]
      rw [hsb.1, hnextb]
      rfl
    · have hnot : set_fill_clamped (1/4 + 1/20000) ∉ fill_steps := by
        rw [hclampb]
        simp only [fill_steps, List.mem_cons, List.mem_singleton]
        push_neg
        refine ⟨by norm_num, by norm_num, by norm_num, by norm_num, by norm_num⟩
      intro c hc
      cases hy : c.isConnectClip
      · rfl
      · exact absurd ((hsb.2 hl).mp ⟨c, hc, hy⟩) hnot

/-- Pointwise effect of the `stop_all_decks` loop: each named deck is
stopped (playing false, fill 0) with every other field untouched; decks
not in the name list keep their state. -/
theorem stop_all_go_get (names : List String) :
    ∀ (m : DeckManager) (n : String),
      get_deck (stop_all_go m names).1 n =
        if n ∈ names then
          (get_deck m n).map (fun d => { d with playing := false, fill := 0 })
        else get_deck m n := by
  induction names with
  | nil => intro m n; simp [stop_all_go]
  | cons n0 rest ih =>
    intro m n
    unfold stop_all_go
    rcases h0 : get_deck m n0 with _ | d0
    · rw [ih]
      by_cases hn : n ∈ rest
      · rw [if_pos hn, if_pos (List.mem_cons_of_mem _ hn)]
      · by_cases he : n = n0
        · subst he
          rw [if_neg hn, if_pos (List.mem_cons_self _ _), h0]
          simp [h0]
        · rw [if_neg hn, if_neg (by simp [he, hn])]
    · simp only
      rw [ih]
      by_cases hn : n ∈ rest
      · rw [if_pos hn, if_pos (List.mem_cons_of_mem _ hn)]
        by_cases he : n = n0
        · subst he
          rw [get_update_same m n _ d0 h0, h0]
          rfl
        · rw [get_update_other m n0 _ n he]
      · by_cases he : n = n0
        · subst he
          rw [if_neg hn, if_pos (List.mem_cons_self _ _)]
          rw [get_update_same m n _ d0 h0, h0]
          rfl
        · rw [if_neg hn, if_neg (by simp [he, hn])]
          rw [get_update_other m n0 _ n he]

/-- A known deck's name appears in the manager's key list. -/
theorem get_deck_key_mem (m : DeckManager) (n : String) (d : DeckState)
    (h : get_deck m n = some d) : n ∈ m.decks.map (fun p => p.1) := by
  unfold get_deck at h
  rcases hf : m.decks.find? (fun p => p.1 == n) with _ | q
  · rw [hf] at h; simp at h
  · have hq1 : q.1 = n := by simpa using List.find?_some hf
    have hqm := List.mem_of_find?_eq_some hf
    exact hq1 ▸ List.mem_map_of_mem _ hqm

/-- The `stop_all_decks` loop pushes the stopped state of each named,
known deck. -/
theorem stop_all_go_cmds (names : List String) :
    ∀ (m : DeckManager) (n : String) (d : DeckState), n ∈ names →
      get_deck m n = some d →
      ∀ c ∈ deck_state_msgs n { d with playing := false, fill := 0 },
        c ∈ (stop_all_go m names).2 := by
  induction names with
  | nil => intro m n d hn; simp at hn
  | cons n0 rest ih =>
    intro m n d hn h c hc
    by_cases he : n = n0
    · subst he
      unfold stop_all_go
      rw [h]
      simp only
      apply List.mem_append_left
      unfold send_deck_state
      rw [get_update_same m n _ d h]
      exact hc
    · have h1 : n ∈ rest := by
        rcases List.mem_cons.mp hn with h1 | h1
        · exact absurd h1 he
        · exact h1
      unfold stop_all_go
      rcases h0 : get_deck m n0 with _ | d0
      · exact ih m n d h1 h c hc
      · simp only
        apply List.mem_append_right
        have h2 : get_deck (update_deck m n0 { d0 with playing := false, fill := 0 }) n
            = some d := by
          rw [get_update_other m n0 _ n he]; exact h
        exact ih _ n d h1 h2 c hc

/-- The `stop_all_decks` loop never emits a clip-connect command. -/
theorem stop_all_go_no_connect (names : List String) :
    ∀ (m : DeckManager), ∀ c ∈ (stop_all_go m names).2, c.isConnectClip = false := by
  induction names with
  | nil => intro m c hc; simp [stop_all_go] at hc
  | cons n0 rest ih =>
    intro m c hc
    unfold stop_all_go at hc
    rcases h0 : get_deck m n0 with _ | d0
    · rw [h0] at hc
      exact ih m c hc
    · rw [h0] at hc
      simp only at hc
      rcases List.mem_append.mp hc with h1 | h1
      · exact send_deck_state_no_connect _ _ c h1
      · exact ih _ c h1

/-- C10: `stop_all_decks` sets playing := false and fill := 0 on every
managed deck, leaving every other field (effects, colors, transform,
opacity, last_changed) unchanged, pushes each deck's new state on the
status bus, and — unlike `stop_deck` — emits no per-layer clip-connect
(stop-clip) command for any layer. -/
theorem C10_stop_all (m : DeckManager) :
    (∀ n d, get_deck m n = some d →
      get_deck (stop_all_decks m).1 n =
        some { d with playing := false, fill := 0 }) ∧
    (∀ n d, get_deck m n = some d →
      ∀ c ∈ deck_state_msgs n { d with playing := false, fill := 0 },
        c ∈ (stop_all_decks m).2) ∧
    (∀ c ∈ (stop_all_decks m).2, c.isConnectClip = false) := by
  refine ⟨?_, ?_, ?_⟩
  · intro n d h
    unfold stop_all_decks
    simp only
    rw [stop_all_go_get, if_pos (get_deck_key_mem m n d h), h]
    rfl
  · intro n d h c hc
    unfold stop_all_decks
    simp only
    apply List.mem_append_left
    exact stop_all_go_cmds _ m n d (get_deck_key_mem m n d h) h c hc
  · intro c hc
    unfold stop_all_decks at hc
    simp only at hc
    rcases List.mem_append.mp hc with h1 | h1
    · exact stop_all_go_no_connect _ m c h1
    · rw [List.mem_singleton.mp h1]
      rfl

/-- Witness for C10 on a two-deck manager. -/
theorem C10_stop_all_witness :
    get_deck mgr_two "left" = some deck_left ∧
    get_deck (stop_all_decks mgr_two).1 "left" =
      some { deck_left with playing := false, fill := 0 } ∧
    Cmd.deckStatus "left" "fill" 0 ∈ (stop_all_decks mgr_two).2 := by
  have h : get_deck mgr_two "left" = some deck_left := by decide
  have r := C10_stop_all mgr_two
  refine ⟨h, r.1 "left" deck_left h, ?_⟩
  refine r.2.1 "left" deck_left h _ ?_
  decide

/-- The manager returned by `set_opacity` on a known deck. -/
theorem set_opacity_fst (m : DeckManager) (deck : String) (d : DeckState)
    (v : ℚ) (h : get_deck m deck = some d) :
    (set_opacity m deck v).1 = update_deck m deck
      (if d.opacity != max 0 (min 1 (if v > 1 then v / 127 else v)) then
        { d with opacity := max 0 (min 1 (if v > 1 then v / 127 else v)) }
      else d) := by
  simp only [set_opacity, h]

/-- C4 counterexample: `toggle_effects` mutates the deck's `effects`
flag yet leaves `last_changed` exactly as it was — the registry handlers
assign fields directly and never touch the timestamp, unlike the
`DeckState.set_effects` helper (shown updating it to the current time). -/
theorem C4_counterexample :
    deck_zero.effects = false ∧
    (get_deck (toggle_effects mgr_zero rnd_ex "stage").1 "stage").map
        DeckState.effects = some true ∧
    (get_deck (toggle_effects mgr_zero rnd_ex "stage").1 "stage").map
        DeckState.last_changed = some deck_zero.last_changed ∧
    (DeckState.set_effects deck_zero true 42).last_changed = 42 := by
  decide

/-- C4 amended: every Action Registry handler preserves the invariant
that fill and opacity lie in [0,1]; but no handler updates any deck's
`last_changed` — the timestamp is written only by the `DeckState.set_*`
helper methods (shown below for `set_effects` and `set_fill`), which the
handlers bypass. -/
theorem C4_amended (m : DeckManager) (rnd : RandOracle) (deck : String)
    (v : ℚ) (hinv : deck_inv m) :
    (deck_inv (toggle_effects m rnd deck).1 ∧
      lc_preserved m (toggle_effects m rnd deck).1) ∧
    (deck_inv (toggle_colors m rnd deck).1 ∧
      lc_preserved m (toggle_colors m rnd deck).1) ∧
    (deck_inv (toggle_transform m rnd deck).1 ∧
      lc_preserved m (toggle_transform m rnd deck).1) ∧
    (deck_inv (set_fill m rnd deck v).1 ∧
      lc_preserved m (set_fill m rnd deck v).1) ∧
    (deck_inv (set_opacity m deck v).1 ∧
      lc_preserved m (set_opacity m deck v).1) ∧
    (deck_inv (stop_deck m deck).1 ∧ lc_preserved m (stop_deck m deck).1) ∧
    (deck_inv (random_fills m rnd deck).1 ∧
      lc_preserved m (random_fills m rnd deck).1) ∧
    (deck_inv (next_clip m deck).1 ∧ lc_preserved m (next_clip m deck).1) ∧
    (deck_inv (next_or_random m rnd deck).1 ∧
      lc_preserved m (next_or_random m rnd deck).1) ∧
    (deck_inv (stop_all_decks m).1 ∧ lc_preserved m (stop_all_decks m).1) ∧
    (∀ (d : DeckState) (b : Bool) (now : ℚ),
      d.effects ≠ b → (DeckState.set_effects d b now).last_changed = now) ∧
    (∀ (d : DeckState) (w now : ℚ),
      |d.fill - max 0 (min 1 w)| > 1/1000000 →
        (DeckState.set_fill d w now).last_changed = now) := by
  have hstop_all : deck_inv (stop_all_decks m).1 ∧
      lc_preserved m (stop_all_decks m).1 := by
    constructor
    · intro n1 d1 h1
      unfold stop_all_decks at h1
      simp only at h1
      rw [stop_all_go_get] at h1
      by_cases hn : n1 ∈ m.decks.map (fun p => p.1)
      · rw [if_pos hn] at h1
        rcases h0 : get_deck m n1 with _ | d0
        · rw [h0] at h1
          cases h1
        · rw [h0] at h1
          have h1s : some ({ d0 with playing := false, fill := 0 } : DeckState) =
              some d1 := h1
          cases h1s
          have hb := hinv n1 d0 h0
          exact ⟨le_refl 0, by norm_num, hb.2.2.1, hb.2.2.2⟩
      · rw [if_neg hn] at h1
        exact hinv n1 d1 h1
    · intro n1
      unfold stop_all_decks
      simp only
      rw [stop_all_go_get]
      by_cases hn : n1 ∈ m.decks.map (fun p => p.1)
      · rw [if_pos hn]
        rcases h0 : get_deck m n1 with _ | d0 <;> simp [h0]
      · rw [if_neg hn]
  rcases h : get_deck m deck with _ | d
  · have e1 : (toggle_effects m rnd deck).1 = m := by simp [toggle_effects, h]
    have e2 : (toggle_colors m rnd deck).1 = m := by simp [toggle_colors, h]
    have e3 : (toggle_transform m rnd deck).1 = m := by
      simp [toggle_transform, h]
    have e4 : (set_fill m rnd deck v).1 = m := by simp [set_fill, h]
    have e5 : (set_opacity m deck v).1 = m := by simp [set_opacity, h]
    have e6 : (stop_deck m deck).1 = m := by simp [stop_deck, h]
    have e7 : (random_fills m rnd deck).1 = m := by simp [random_fills, h]
    have e8 : (next_clip m deck).1 = m := by simp [next_clip, h]
    have e9 : (next_or_random m rnd deck).1 = m := by simp [next_or_random, h]
    rw [e1, e2, e3, e4, e5, e6, e7, e8, e9]
    refine ⟨⟨hinv, lc_refl m⟩, ⟨hinv, lc_refl m⟩, ⟨hinv, lc_refl m⟩,
      ⟨hinv, lc_refl m⟩, ⟨hinv, lc_refl m⟩, ⟨hinv, lc_refl m⟩,
      ⟨hinv, lc_refl m⟩, ⟨hinv, lc_refl m⟩, ⟨hinv, lc_refl m⟩, hstop_all,
      ?_, ?_⟩
    · intro d b now hne
      unfold DeckState.set_effects
      rw [if_pos (by simpa using hne)]
    · intro d w now hgt
      unfold DeckState.set_fill
      rw [if_pos hgt]
  · have hb := hinv deck d h
    have hclamp_bounds : ∀ x : ℚ, 0 ≤ max 0 (min 1 x) ∧ max 0 (min 1 x) ≤ 1 :=
      fun x => clamp01_mem x
    have h1 : (toggle_effects m rnd deck).1 =
        update_deck m deck { d with effects := !d.effects } := by
      simp [toggle_effects, h]
    have h2 : (toggle_colors m rnd deck).1 =
        update_deck m deck { d with colors := !d.colors } := by
      simp [toggle_colors, h]
    have h3 : (toggle_transform m rnd deck).1 =
        update_deck m deck { d with transform := !d.transform } := by
      simp [toggle_transform, h]
    have h4 := set_fill_fst m rnd deck d v h
    have h6 : (stop_deck m deck).1 =
        update_deck m deck { d with playing := false, fill := 0 } := by
      simp [stop_deck, h]
    have h7 : (random_fills m rnd deck).1 = update_deck m deck
        { d with fill := rnd.choiceQ [0, 1/4, 1/2, 3/4, 1], playing := true } := by
      simp [random_fills, h]
    have h8 : (next_clip m deck).1 = m := by simp [next_clip, h]
    have p1 : deck_inv (toggle_effects m rnd deck).1 ∧
        lc_preserved m (toggle_effects m rnd deck).1 := by
      rw [h1]
      exact ⟨update_deck_inv m deck _ hinv hb, lc_update m deck d _ h rfl⟩
    have p2 : deck_inv (toggle_colors m rnd deck).1 ∧
        lc_preserved m (toggle_colors m rnd deck).1 := by
      rw [h2]
      exact ⟨update_deck_inv m deck _ hinv hb, lc_update m deck d _ h rfl⟩
    have p3 : deck_inv (toggle_transform m rnd deck).1 ∧
        lc_preserved m (toggle_transform m rnd deck).1 := by
      rw [h3]
      exact ⟨update_deck_inv m deck _ hinv hb, lc_update m deck d _ h rfl⟩
    have hnext_bounds : 0 ≤ (set_fill_next d v).fill ∧
        (set_fill_next d v).fill ≤ 1 ∧ 0 ≤ (set_fill_next d v).opacity ∧
        (set_fill_next d v).opacity ≤ 1 := by
      have hc : 0 ≤ set_fill_clamped v ∧ set_fill_clamped v ≤ 1 := by
        unfold set_fill_clamped
        by_cases hv : |v| > 1 <;> simp [hv, clamp01_mem]
      unfold set_fill_next
      split
      · exact ⟨hc.1, hc.2, hb.2.2.1, hb.2.2.2⟩
      · exact ⟨hb.1, hb.2.1, hb.2.2.1, hb.2.2.2⟩
    have hnext_lc : (set_fill_next d v).last_changed = d.last_changed := by
      unfold set_fill_next
      split <;> rfl
    have p4 : deck_inv (set_fill m rnd deck v).1 ∧
        lc_preserved m (set_fill m rnd deck v).1 := by
      rw [h4]
      exact ⟨update_deck_inv m deck _ hinv hnext_bounds,
        lc_update m deck d _ h hnext_lc⟩
    have p5 : deck_inv (set_opacity m deck v).1 ∧
        lc_preserved m (set_opacity m deck v).1 := by
      rw [set_opacity_fst m deck d v h]
      refine ⟨update_deck_inv m deck _ hinv ?_, lc_update m deck d _ h ?_⟩
      · by_cases hc : (d.opacity !=
            max 0 (min 1 (if v > 1 then v / 127 else v))) = true
        · rw [if_pos hc]
          exact ⟨hb.1, hb.2.1, (hclamp_bounds _).1, (hclamp_bounds _).2⟩
        · rw [if_neg hc]
          exact hb
      · by_cases hc : (d.opacity !=
            max 0 (min 1 (if v > 1 then v / 127 else v))) = true
        · rw [if_pos hc]
        · rw [if_neg hc]
    have p6 : deck_inv (stop_deck m deck).1 ∧
        lc_preserved m (stop_deck m deck).1 := by
      rw [h6]
      refine ⟨update_deck_inv m deck _ hinv
        ⟨le_refl 0, by norm_num, hb.2.2.1, hb.2.2.2⟩,
        lc_update m deck d _ h rfl⟩
    have p7 : deck_inv (random_fills m rnd deck).1 ∧
        lc_preserved m (random_fills m rnd deck).1 := by
      rw [h7]
      have hcb := choiceQ_steps_bounds rnd
      exact ⟨update_deck_inv m deck _ hinv
        ⟨hcb.1, hcb.2, hb.2.2.1, hb.2.2.2⟩,
        lc_update m deck d _ h rfl⟩
    have p8 : deck_inv (next_clip m deck).1 ∧
        lc_preserved m (next_clip m deck).1 := by
      rw [h8]
      exact ⟨hinv, lc_refl m⟩
    have p9 : deck_inv (next_or_random m rnd deck).1 ∧
        lc_preserved m (next_or_random m rnd deck).1 := by
      by_cases hp : d.playing
      · have e : next_or_random m rnd deck = next_clip m deck := by
          simp [next_or_random, h, hp]
        rw [e]
        exact p8
      · have e : next_or_random m rnd deck = random_fills m rnd deck := by
          simp [next_or_random, h, hp]
        rw [e]
        exact p7
    refine ⟨p1, p2, p3, p4, p5, p6, p7, p8, p9, hstop_all, ?_, ?_⟩
    · intro d1 b now hne
      unfold DeckState.set_effects
      rw [if_pos (by simpa using hne)]
    · intro d1 w now hgt
      unfold DeckState.set_fill
      rw [if_pos hgt]

/-- Witness for C4 amended on a concrete two-deck manager. -/
theorem C4_amended_witness :
    deck_inv mgr_two ∧ deck_inv (toggle_effects mgr_two rnd_ex "stage").1 ∧
      lc_preserved mgr_two (stop_all_decks mgr_two).1 := by
  have hinv : deck_inv mgr_two := by
    intro n d h
    simp only [mgr_two, get_deck, List.find?] at h
    by_cases h1 : ("stage" == n)
    · simp only [h1] at h
      have hs : some deck_half = some d := h
      cases hs
      norm_num [deck_half]
    · simp only [h1] at h
      by_cases h2 : ("left" == n)
      · simp only [h2] at h
        have hs : some deck_left = some d := h
        cases hs
        norm_num [deck_left]
      · simp only [h2] at h
        cases h
  have r := C4_amended mgr_two rnd_ex "stage" 1 hinv
  exact ⟨hinv, r.1.1, r.2.2.2.2.2.2.2.2.2.1.2⟩

/-- `_reflect_apc_leds` without a resolved output channel does nothing. -/
theorem reflect_no_channel (dtc : List (String × Int)) (blink : Int → Bool)
    (sigs : List (String × ApcSig)) (deck : DeckState) (force : Bool)
    (hch : (dtc.find? (fun p => p.1 == deck.dname)).map (fun p => p.2) = none) :
    reflect_apc_leds true dtc blink sigs deck force = ([], sigs) := by
  unfold reflect_apc_leds
  rw [hch]
  rfl

/-- `_reflect_apc_leds` skips all emission when the computed signature
matches the cached one and no refresh is forced. -/
theorem reflect_skip (dtc : List (String × Int)) (blink : Int → Bool)
    (sigs : List (String × ApcSig)) (deck : DeckState) (ch : Int)
    (hch : (dtc.find? (fun p => p.1 == deck.dname)).map (fun p => p.2) = some ch)
    (hhit : (sig_get sigs deck.dname ==
      some (apc_sig ch deck.playing (blink ch) deck.fill)) = true) :
    reflect_apc_leds true dtc blink sigs deck false = ([], sigs) := by
  unfold reflect_apc_leds
  rw [hch]
  simp [hhit]

/-- `_reflect_apc_leds` emits the full write set and stores the new
signature when the signature check misses. -/
theorem reflect_emit (dtc : List (String × Int)) (blink : Int → Bool)
    (sigs : List (String × ApcSig)) (deck : DeckState) (ch : Int)
    (hch : (dtc.find? (fun p => p.1 == deck.dname)).map (fun p => p.2) = some ch)
    (hmiss : (sig_get sigs deck.dname ==
      some (apc_sig ch deck.playing (blink ch) deck.fill)) = false) :
    reflect_apc_leds true dtc blink sigs deck false =
      (apc_writes ch deck.playing (blink ch) deck.fill,
        sig_set sigs deck.dname
          (apc_sig ch deck.playing (blink ch) deck.fill)) := by
  unfold reflect_apc_leds
  rw [hch]
  simp [hmiss]

/-- For a non-playing deck the signature does not depend on the blink
phase: note 52 is off and its blink flag 0 either way. -/
theorem apc_sig_not_playing (ch : Int) (b1 b2 : Bool) (fill : ℚ) :
    apc_sig ch false b1 fill = apc_sig ch false b2 fill := by
  simp [apc_sig, note52_vel, blink_flag_52]

/-- C8 amended: the per-deck reflection emits nothing when the computed
signature equals the cached one and no refresh is forced; for a
NON-playing deck the signature depends only on the deck state and
channel, so a second consecutive reflection with unchanged state emits
nothing — but this unchanged-state debounce does not extend to playing
decks, whose note-52 blink makes the signature time-dependent. -/
theorem C8_amended :
    (∀ (apc : Bool) (dtc : List (String × Int)) (blink : Int → Bool)
       (sigs : List (String × ApcSig)) (deck : DeckState) (ch : Int),
      (dtc.find? (fun p => p.1 == deck.dname)).map (fun p => p.2) = some ch →
      sig_get sigs deck.dname =
        some (apc_sig ch deck.playing (blink ch) deck.fill) →
      (reflect_apc_leds apc dtc blink sigs deck false).1 = []) ∧
    (∀ (apc : Bool) (dtc : List (String × Int)) (blink1 blink2 : Int → Bool)
       (sigs : List (String × ApcSig)) (deck : DeckState),
      deck.playing = false →
      (reflect_apc_leds apc dtc blink2
        (reflect_apc_leds apc dtc blink1 sigs deck false).2 deck false).1 = []) := by
  constructor
  · intro apc dtc blink sigs deck ch hch hsig
    cases apc
    · rfl
    · rw [reflect_skip dtc blink sigs deck ch hch (by rw [hsig]; exact beq_self_eq_true _)]
  · intro apc dtc blink1 blink2 sigs deck hp
    cases apc
    · rfl
    · rcases hch : (dtc.find? (fun p => p.1 == deck.dname)).map (fun p => p.2)
        with _ | ch
      · rw [reflect_no_channel dtc blink1 sigs deck false hch,
          reflect_no_channel dtc blink2 sigs deck false hch]
      · have hsig_eq : apc_sig ch deck.playing (blink1 ch) deck.fill =
            apc_sig ch deck.playing (blink2 ch) deck.fill := by
          rw [hp]
          exact apc_sig_not_playing ch _ _ deck.fill
        by_cases hhit : (sig_get sigs deck.dname ==
            some (apc_sig ch deck.playing (blink1 ch) deck.fill)) = true
        · rw [reflect_skip dtc blink1 sigs deck ch hch hhit]
          rw [reflect_skip dtc blink2 sigs deck ch hch (by rw [← hsig_eq]; exact hhit)]
        · have hmiss : (sig_get sigs deck.dname ==
              some (apc_sig ch deck.playing (blink1 ch) deck.fill)) = false := by
            simpa using hhit
          rw [reflect_emit dtc blink1 sigs deck ch hch hmiss]
          rw [reflect_skip dtc blink2 _ deck ch hch ?_]
          rw [sig_get_set_same, ← hsig_eq]
          exact beq_self_eq_true _

/-- Witness for C8 amended: a concrete non-playing deck reflected twice
with different blink phases emits nothing on the second call. -/
theorem C8_amended_witness :
    deck_zero.playing = false ∧
    (reflect_apc_leds true [("stage", 0)] (fun _ => false)
      (reflect_apc_leds true [("stage", 0)] (fun _ => true) [] deck_zero
        false).2 deck_zero false).1 = [] :=
  ⟨rfl, (C8_amended.2 true [("stage", 0)] (fun _ => true) (fun _ => false) []
    deck_zero rfl)⟩

/-- Four segment LEDs are lit at full fill. -/
theorem greens_count_one : greens_count 1 = 4 := by
  unfold greens_count
  rw [clamp01_id 1 (by norm_num) (by norm_num), one_mul]
  have hfl : ⌊(4 : ℚ)⌋ = 4 := by
    rw [show (4 : ℚ) = ((4 : ℤ) : ℚ) by norm_num]
    exact Int.floor_intCast 4
  unfold py_round
  rw [hfl]
  norm_num

/-- The playing signature at full fill under the two blink phases. -/
theorem apc_sig_playing_vals :
    apc_sig 0 true true 1 = (⟨0, 5, 1, 4, 0, 1⟩ : ApcSig) ∧
    apc_sig 0 true false 1 = (⟨0, 5, 0, 4, 0, 0⟩ : ApcSig) := by
  constructor <;>
    simp [apc_sig, note57_vel, note52_vel, blink_flag_52, apc_vel_yellow,
      apc_vel_green, apc_vel_off, greens_count_one]

/-- C8 counterexample: a playing deck — reachable via `set_fill` — whose
state is unchanged between two consecutive reflections still gets
indicator writes on the second call when the blink phase has moved,
because the note-52 blink is part of the emitted signature. -/
theorem C8_counterexample :
    get_deck (set_fill mgr_zero rnd_ex "stage" 1).1 "stage" = some deck_play ∧
    (reflect_apc_leds true [("stage", 0)] (fun _ => false)
        (reflect_apc_leds true [("stage", 0)] (fun _ => true) [] deck_play
          false).2 deck_play false).1 ≠ [] := by
  constructor
  · have h1 : get_deck mgr_zero "stage" = some deck_zero := rfl
    have hs := (set_fill_spec mgr_zero rnd_ex "stage" deck_zero 1 h1).1
    have hcl : set_fill_clamped 1 = 1 := by
      unfold set_fill_clamped
      rw [if_neg (by norm_num), clamp01_id 1 (by norm_num) (by norm_num)]
    have hnext : set_fill_next deck_zero 1 = deck_play := by
      unfold set_fill_next
      rw [hcl]
      have habs : |deck_zero.fill - 1| = 1 := by
        rw [show deck_zero.fill = 0 from rfl]
        norm_num
      rw [habs, if_pos (by norm_num)]
      rfl
    rw [hs, hnext]
  · have hch : (([("stage", (0 : Int))].find? (fun p =>
        p.1 == deck_play.dname)).map (fun p => p.2)) = some 0 := rfl
    have hmiss1 : ((sig_get ([] : List (String × ApcSig)) deck_play.dname) ==
        some (apc_sig 0 deck_play.playing ((fun (_ : Int) => true) 0)
          deck_play.fill)) = false := rfl
    have hr1 := reflect_emit [("stage", 0)] (fun _ => true) [] deck_play 0
      hch hmiss1
    rw [hr1]
    have hmiss2 : ((sig_get (sig_set ([] : List (String × ApcSig))
        deck_play.dname (apc_sig 0 deck_play.playing ((fun (_ : Int) => true) 0)
          deck_play.fill)) deck_play.dname) ==
        some (apc_sig 0 deck_play.playing ((fun (_ : Int) => false) 0)
          deck_play.fill)) = false := by
      rw [sig_get_set_same]
      have e1 : apc_sig 0 deck_play.playing ((fun (_ : Int) => true) 0)
          deck_play.fill = apc_sig 0 true true 1 := rfl
      have e2 : apc_sig 0 deck_play.playing ((fun (_ : Int) => false) 0)
          deck_play.fill = apc_sig 0 true false 1 := rfl
      rw [e1, e2, apc_sig_playing_vals.1, apc_sig_playing_vals.2]
      decide
    rw [reflect_emit [("stage", 0)] (fun _ => false) _ deck_play 0 hch hmiss2]
    simp [apc_writes]

end MidiMapper
